import Mathlib

/-!
# Verification of the PR review-reminder bot scheduler

Shallow embedding of the scheduling core of `src/index.mjs`: the time-window
validator, the reminder clock (`nextReminderDate`), the per-chat scheduler
(`scheduleReminder`, `clearChatReminders`, the `setTimeout` callback), the
command handlers (`/set_windows`, `/show_windows`) and the shutdown path.

Modelling conventions:
* Wall-clock time is seconds since an epoch (`Int`); a calendar day is a fixed
  86400 seconds (the code is timezone-naive, per the design).  `Date` mutation
  (`setSeconds(0,0)`, `setHours(h,m,0,0)`, `setMinutes(-10)`, `setDate(+1)`) is
  calendar arithmetic on that representation.
* The `Map`s of the source (`chatStates`, `st.reminders`) are an association
  list keyed by chat id and a two-field record keyed by slot.
* A `setTimeout` handle is a numeric timer id; the set of currently pending
  timeouts is the `armed` list; `clearTimeout` removes a pending timer by id.
* The Telegram transport is an explicit `Except String Unit` outcome supplied
  to each send; `ctx.reply` results are returned as a `Reply` value (the exact
  Russian message texts are abbreviated, no claim depends on them).
-/

namespace ReviewReminder

/-- The two window slots of a chat (`'morning' | 'evening'`). -/
inductive Slot : Type
  | morning
  | evening
deriving DecidableEq, Repr

/-- `Windows`: per chat, nullable morning and evening window strings. -/
structure Windows where
  morning : Option String
  evening : Option String
deriving DecidableEq, Repr

/-- Read a slot of a `Windows` record (`st.windows[windowKey]`). -/
def Windows.get (w : Windows) : Slot → Option String
  | Slot.morning => w.morning
  | Slot.evening => w.evening

/-- The `st.reminders` map: at most one timer handle per slot. -/
structure Reminders where
  morning : Option Nat
  evening : Option Nat
deriving DecidableEq, Repr

/-- `st.reminders.get(windowKey)`. -/
def Reminders.get (r : Reminders) : Slot → Option Nat
  | Slot.morning => r.morning
  | Slot.evening => r.evening

/-- `st.reminders.set(windowKey, v)` / `st.reminders.delete(windowKey)`
(deletion stores `none`). -/
def Reminders.set (r : Reminders) : Slot → Option Nat → Reminders
  | Slot.morning, v => { r with morning := v }
  | Slot.evening, v => { r with evening := v }

/-- `st.reminders.clear()`. -/
def Reminders.clearAll : Reminders := ⟨none, none⟩

/-- The list of timer handles stored in the map (`st.reminders.values()`). -/
def Reminders.handleList (r : Reminders) : List Nat :=
  r.morning.toList ++ r.evening.toList

/-- Per-chat state: current windows plus the live timer-handle map. -/
structure ChatState where
  windows : Windows
  reminders : Reminders
deriving DecidableEq, Repr

/-- The state freshly created by `getChatState` for an unknown chat. -/
def emptyChat : ChatState :=
  { windows := ⟨none, none⟩, reminders := ⟨none, none⟩ }

/-- A pending `setTimeout`: its handle, the chat and slot it reminds,
the window string captured by the callback closure, and its due time. -/
structure Timer where
  id : Nat
  chatId : Nat
  slot : Slot
  window : String
  fireAt : Int
deriving DecidableEq, Repr

/-- Whole-process state: the `chatStates` map, the pending timeouts, a fresh
handle counter, the log of dispatched notifications, the error log, and the
current wall clock. -/
structure SysState where
  chats : List (Nat × ChatState)
  armed : List Timer
  nextId : Nat
  sent : List (Nat × String)
  log : List String
  now : Int
deriving DecidableEq, Repr

/-- Association-list lookup for `chatStates.get`. -/
def lookupChat : List (Nat × ChatState) → Nat → Option ChatState
  | [], _ => none
  | (k, v) :: rest, c => if k = c then some v else lookupChat rest c

/-- Replace the entry of an existing chat (mutation of the stored object). -/
def updateChat : List (Nat × ChatState) → Nat → ChatState → List (Nat × ChatState)
  | [], _, _ => []
  | (k, v) :: rest, c, st =>
      if k = c then (k, st) :: rest else (k, v) :: updateChat rest c st

/-- The creating half of `getChatState`: insert an empty state if the chat is
unknown. -/
def SysState.ensure (s : SysState) (c : Nat) : SysState :=
  if (lookupChat s.chats c).isSome then s
  else { s with chats := s.chats ++ [(c, emptyChat)] }

/-- The reading half of `getChatState` (total: defaults to the empty state). -/
def SysState.chat (s : SysState) (c : Nat) : ChatState :=
  (lookupChat s.chats c).getD emptyChat

/-- The process starts with no chats, no timers and empty logs. -/
def initState (t : Int) : SysState :=
  { chats := [], armed := [], nextId := 0, sent := [], log := [], now := t }

/-! ## Time Window Validator

`isValidTimeWindow` tests `/^([01]?\d|2[0-3]):[0-5]\d-([01]?\d|2[0-3]):[0-5]\d$/`.
The alternation is resolved deterministically: the `:` that terminates the hour
group is never a digit, so the one- versus two-digit split is forced by the
input and no other backtracking can succeed. -/

/-- `\d` -/
def isDigitChar (c : Char) : Bool := '0' ≤ c && c ≤ '9'

/-- `[01]` -/
def isZeroOne (c : Char) : Bool := c == '0' || c == '1'

/-- `[0-3]` -/
def isZeroToThree (c : Char) : Bool := '0' ≤ c && c ≤ '3'

/-- `[0-5]` -/
def isZeroToFive (c : Char) : Bool := '0' ≤ c && c ≤ '5'

/-- Match one `([01]?\d|2[0-3]):[0-5]\d` group at the head of the character
list, returning the unconsumed suffix on success. -/
def matchTime : List Char → Option (List Char)
  | c1 :: ':' :: m1 :: m2 :: rest =>
      if isDigitChar c1 && (isZeroToFive m1 && isDigitChar m2) then some rest else none
  | c1 :: c2 :: ':' :: m1 :: m2 :: rest =>
      if ((isZeroOne c1 && isDigitChar c2) || (c1 == '2' && isZeroToThree c2))
          && (isZeroToFive m1 && isDigitChar m2) then some rest else none
  | _ => none

/-- `isValidTimeWindow`: full-string match of
`([01]?\d|2[0-3]):[0-5]\d-([01]?\d|2[0-3]):[0-5]\d`. -/
def isValidTimeWindow (s : String) : Bool :=
  match matchTime s.toList with
  | some ('-' :: rest) =>
      match matchTime rest with
      | some [] => true
      | _ => false
  | _ => false

/-! ## Reminder Clock -/

/-- Seconds in one calendar day. -/
def daySecs : Int := 86400

/-- Midnight of the calendar day containing `t`. -/
def dayFloor (t : Int) : Int := (Int.fdiv t daySecs) * daySecs

/-- `nextReminderDate`, with the start hour and minute already split out:
build today at `h:m:00.000`, subtract the 10-minute lead, and roll to
tomorrow when the result is not strictly in the future. -/
def nextReminderDate (h m : Int) (now : Int) : Int :=
  let reminder := dayFloor now + h * 3600 + m * 60 - 600
  if reminder ≤ now then reminder + daySecs else reminder

/-- `String.prototype.split(sep)` for a one-character separator, on the
character list. -/
def splitOnChar (sep : Char) (l : List Char) : List (List Char) :=
  l.foldr
    (fun c acc =>
      match acc with
      | [] => [[c]]
      | cur :: rest => if c = sep then [] :: cur :: rest else (c :: cur) :: rest)
    [[]]

/-- `Number(s)` restricted to the decimal-digit strings the validated windows
produce (`Number("") = 0`; a non-digit character yields `NaN`, here `none`). -/
def digitsVal : List Char → Option Nat
  | [] => some 0
  | c :: rest =>
      if isDigitChar c then
        (digitsVal rest).map (fun v => (c.toNat - 48) * 10 ^ rest.length + v)
      else none

/-- `timeWindow.split('-')[0].split(':').map(Number)`: the start hour and
minute of a window string.  On the validated strings the code feeds it this is
exact; an unparsable string (`NaN` in the source, unreachable because the
handlers validate first) defaults to `(0, 0)`. -/
def parseStartHM (timeWindow : String) : Int × Int :=
  let start := (splitOnChar '-' timeWindow.toList).headD []
  match (splitOnChar ':' start).map digitsVal with
  | [some h, some m] => ((h : Int), (m : Int))
  | _ => (0, 0)

/-! ## Notification Dispatcher -/

/-- The reminder text (abbreviated; carries the slot label and the literal
window string, as the template does). -/
def reminderMessage (sl : Slot) (w : String) : String :=
  (match sl with
   | Slot.morning => "morning"
   | Slot.evening => "evening") ++ " PR window in 10 minutes (" ++ w ++ ") @all"

/-- The raw `bot.telegram.sendMessage` call: the transport outcome is explicit
and a failure is raised to the caller. -/
def sendMessageRaw (transport : Except String Unit) (chatId : Nat) (message : String)
    (s : SysState) : Except String SysState :=
  match transport with
  | Except.ok _ => Except.ok { s with sent := s.sent ++ [(chatId, message)] }
  | Except.error e => Except.error e

/-- `sendToChat`: wraps the raw send in `try ... catch`, logging a transport
failure (`console.error`) instead of re-raising it. -/
def sendToChat (message : String) (chatId : Nat) (transport : Except String Unit)
    (s : SysState) : Except String SysState :=
  match sendMessageRaw transport chatId message s with
  | Except.ok s2 => Except.ok s2
  | Except.error e => Except.ok { s with log := s.log ++ ["send error: " ++ e] }

/-! ## Per-Chat Scheduler -/

/-- `clearChatReminders`: `clearTimeout` every handle held in the chat's
reminder map, then clear the map.  Stored windows are untouched. -/
def clearChatReminders (chatId : Nat) (s : SysState) : SysState :=
  let s := s.ensure chatId
  let st := s.chat chatId
  let ids := st.reminders.handleList
  { s with
    armed := s.armed.filter (fun t => !(ids.contains t.id)),
    chats := updateChat s.chats chatId { st with reminders := Reminders.clearAll } }

/-- `scheduleReminder`: compute the next fire time for the window's start,
`clearTimeout` any existing handle for this slot, arm a fresh timeout and
record its handle in the slot. -/
def scheduleReminder (chatId : Nat) (slot : Slot) (timeWindow : String)
    (s : SysState) : SysState :=
  let s := s.ensure chatId
  let st := s.chat chatId
  let hm := parseStartHM timeWindow
  let runAt := nextReminderDate hm.1 hm.2 s.now
  let s :=
    match st.reminders.get slot with
    | some existing => { s with armed := s.armed.filter (fun t => !(t.id == existing)) }
    | none => s
  let t : Timer := { id := s.nextId, chatId := chatId, slot := slot,
                     window := timeWindow, fireAt := runAt }
  { s with
    armed := s.armed ++ [t],
    nextId := s.nextId + 1,
    chats := updateChat s.chats chatId
      { st with reminders := st.reminders.set slot (some s.nextId) } }

/-- Expiry of pending timeout `tid`: it leaves the pending set and the wall
clock reaches its due time (or stays put when the computed delay was already
negative — `setTimeout` with a negative delay runs at once). -/
def expireTimer (tid : Nat) (t : Timer) (s : SysState) : SysState :=
  { s with armed := s.armed.filter (fun u => !(u.id == tid)),
           now := max s.now t.fireAt }

/-- First lines of the callback: `getChatState`, then delete the slot's stored
handle if one is present. -/
def deleteSlotHandle (c : Nat) (sl : Slot) (s : SysState) : SysState :=
  let s := s.ensure c
  let st := s.chat c
  let stDel : ChatState := { st with reminders := st.reminders.set sl none }
  match st.reminders.get sl with
  | some _ => { s with chats := updateChat s.chats c stDel }
  | none => s

/-- Rest of the callback: re-read the current window of the slot; a changed
window makes the fire a stale no-op (re-arming for the new value when it is
non-null); an unchanged window is dispatched and re-armed for the same value.
An exception escaping the callback (`unhandledRejection`) would skip the
re-arm; `sendToChat` never produces one, so that branch only logs. -/
def runCallback (t : Timer) (transport : Except String Unit) (s : SysState) : SysState :=
  let fresh := (s.chat t.chatId).windows.get t.slot
  if fresh ≠ some t.window then
    match fresh with
    | some w => scheduleReminder t.chatId t.slot w s
    | none => s
  else
    match sendToChat (reminderMessage t.slot t.window) t.chatId transport s with
    | Except.ok s2 => scheduleReminder t.chatId t.slot t.window s2
    | Except.error e => { s with log := s.log ++ ["unhandledRejection: " ++ e] }

/-- Expiry of pending timeout `tid` and execution of its `setTimeout`
callback.  A handle that is not pending (already fired or cleared) does
nothing. -/
def fireTimer (tid : Nat) (transport : Except String Unit) (s : SysState) : SysState :=
  match s.armed.find? (fun t => t.id == tid) with
  | none => s
  | some t => runCallback t transport (deleteSlotHandle t.chatId t.slot (expireTimer tid t s))

/-! ## Command handlers -/

/-- The outcome of `ctx.reply` for the two commands (texts abbreviated). -/
inductive Reply : Type
  | usageError
  | formatError
  | setConfirm (morning : String) (evening : Option String)
  | noWindowsInfo
  | windowsList (morning evening : Option String)
deriving DecidableEq, Repr

/-- `st.windows.morning = args[0]; st.windows.evening = args[1] ?? null`. -/
def storeWindows (chatId : Nat) (m e : Option String) (s : SysState) : SysState :=
  let s := s.ensure chatId
  let st := s.chat chatId
  { s with chats := updateChat s.chats chatId ({ st with windows := ⟨m, e⟩ }) }

/-- Mirror the confirmation to the configured default broadcast chat when it
is set and differs from the origin chat. -/
def mirrorConfirm (chatId : Nat) (targetChatId : Option Nat) (s : SysState) : SysState :=
  match targetChatId with
  | some g =>
      if g ≠ chatId then
        { s with sent := s.sent ++ [(g, "set-windows confirmation @all")] }
      else s
  | none => s

/-- The `/set_windows` handler: argument-count check, per-argument format
validation, then store the windows (`evening` is `args[1] ?? null`), clear the
chat's timers and re-arm one timer per non-null slot; finally the confirmation
reply, mirrored to the configured default chat when it differs. -/
def setWindowsCommand (chatId : Nat) (args : List String) (targetChatId : Option Nat)
    (s : SysState) : SysState × Reply :=
  if args.length = 0 ∨ args.length > 2 then (s, Reply.usageError)
  else if !(args.all isValidTimeWindow) then (s, Reply.formatError)
  else
    let morning := args.headD ""
    let evening := args[1]?
    let s := storeWindows chatId (some morning) evening s
    let s := clearChatReminders chatId s
    let s := scheduleReminder chatId Slot.morning morning s
    let s :=
      match evening with
      | some e => scheduleReminder chatId Slot.evening e s
      | none => s
    (mirrorConfirm chatId targetChatId s, Reply.setConfirm morning evening)

/-- The `/show_windows` handler: report the stored windows, or point at
`/set_windows` when neither slot is set. -/
def showWindowsCommand (chatId : Nat) (s : SysState) : SysState × Reply :=
  let s := s.ensure chatId
  let st := s.chat chatId
  match st.windows.morning, st.windows.evening with
  | none, none => (s, Reply.noWindowsInfo)
  | m, e => (s, Reply.windowsList m e)

/-! ## Shutdown -/

/-- `clearAllRemindersAllChats`: clear every chat's reminders. -/
def clearAllRemindersAllChats (s : SysState) : SysState :=
  (s.chats.map Prod.fst).foldl (fun acc c => clearChatReminders c acc) s

/-- The `SIGINT` handler body (before `bot.stop`). -/
def onSigint (s : SysState) : SysState := clearAllRemindersAllChats s

/-- The `SIGTERM` handler body (before `bot.stop`). -/
def onSigterm (s : SysState) : SysState := clearAllRemindersAllChats s

/-- The timer armed by `scheduleReminder c sl w s` (fresh handle, due at the
clock's next occurrence of the window start minus the lead). -/
def newTimer (c : Nat) (sl : Slot) (w : String) (s : SysState) : Timer :=
  { id := s.nextId, chatId := c, slot := sl, window := w,
    fireAt := nextReminderDate (parseStartHM w).1 (parseStartHM w).2 s.now }

/-- The character of decimal digit `d`. -/
def digitChar (d : Nat) : Char := Char.ofNat (48 + d)

/-- The hour group `([01]?\d|2[0-3])`: a bare digit `0–9`, or two digits
spelling `00–23`. -/
def HourRep (h : Nat) (cs : List Char) : Prop :=
  (h ≤ 9 ∧ cs = [digitChar h]) ∨
  (h ≤ 23 ∧ cs = [digitChar (h / 10), digitChar (h % 10)])

/-- The minute group `[0-5]\d`: two digits spelling `00–59`. -/
def MinRep (m : Nat) (cs : List Char) : Prop :=
  m ≤ 59 ∧ cs = [digitChar (m / 10), digitChar (m % 10)]

/-- The claim's accepted language: `hour:minute-hour:minute` with hours 0–23
(both digit forms) and minutes 00–59, and no constraint between the two
boundaries. -/
def MatchesWindowPattern (s : String) : Prop :=
  ∃ h1 m1 h2 m2 H1 M1 H2 M2,
    HourRep h1 H1 ∧ MinRep m1 M1 ∧ HourRep h2 H2 ∧ MinRep m2 M2 ∧
    s.toList = H1 ++ ':' :: M1 ++ '-' :: H2 ++ ':' :: M2

/-! ## Scheduler invariant

The pending timeouts and the per-slot handle maps track each other: every
pending timer's handle is the one stored for its `(chatId, slot)`, handles are
unique, and every stored handle points back at a pending timer of that slot.
This is the mechanism behind the one-armed-timer-per-slot discipline. -/

/-- The pending timers of one `(chatId, slot)` pair. -/
def armedFor (s : SysState) (c : Nat) (sl : Slot) : List Timer :=
  s.armed.filter (fun t => t.chatId == c && t.slot == sl)

/-- The handle stored for `(c, sl)` — if any — points at a pending timer of
that chat and slot. -/
def slotTracked (s : SysState) (c : Nat) (sl : Slot) : Prop :=
  ∀ i ∈ ((s.chat c).reminders.get sl).toList,
    ∃ t, t ∈ s.armed ∧ t.id = i ∧ t.chatId = c ∧ t.slot = sl

/-- Scheduler data invariant, established at start-up and preserved by every
operation. -/
def Inv (s : SysState) : Prop :=
  (∀ t ∈ s.armed,
      (s.chat t.chatId).reminders.get t.slot = some t.id ∧
      (lookupChat s.chats t.chatId).isSome = true) ∧
  (s.armed.map Timer.id).Nodup ∧
  (∀ t ∈ s.armed, t.id < s.nextId) ∧
  (s.chats.map Prod.fst).Nodup ∧
  (∀ p ∈ s.chats, slotTracked s p.1 Slot.morning ∧ slotTracked s p.1 Slot.evening)

/-! ### Association-list lemmas -/

theorem lookupChat_cons (k : Nat) (v : ChatState) (rest : List (Nat × ChatState)) (c : Nat) :
    lookupChat ((k, v) :: rest) c = if k = c then some v else lookupChat rest c := rfl

theorem updateChat_cons (k : Nat) (v : ChatState) (rest : List (Nat × ChatState)) (c : Nat)
    (st : ChatState) :
    updateChat ((k, v) :: rest) c st =
      if k = c then (k, st) :: rest else (k, v) :: updateChat rest c st := rfl

theorem lookupChat_updateChat_self (l : List (Nat × ChatState)) (c : Nat) (st : ChatState) :
    lookupChat (updateChat l c st) c = if (lookupChat l c).isSome then some st else none := by
  induction l with
  | nil => simp [lookupChat, updateChat]
  | cons p rest ih =>
    obtain ⟨k, v⟩ := p
    by_cases h : k = c
    · simp [lookupChat_cons, updateChat_cons, h]
    · simp [lookupChat_cons, updateChat_cons, h, ih]

theorem lookupChat_updateChat_ne (l : List (Nat × ChatState)) (c c' : Nat) (st : ChatState)
    (h : c' ≠ c) : lookupChat (updateChat l c st) c' = lookupChat l c' := by
  induction l with
  | nil => simp [updateChat]
  | cons p rest ih =>
    obtain ⟨k, v⟩ := p
    by_cases hp : k = c
    · subst hp
      have hkc : ¬ k = c' := fun hh => h hh.symm
      simp [lookupChat_cons, updateChat_cons, hkc]
    · simp [lookupChat_cons, updateChat_cons, hp, ih]

theorem updateChat_keys (l : List (Nat × ChatState)) (c : Nat) (st : ChatState) :
    (updateChat l c st).map Prod.fst = l.map Prod.fst := by
  induction l with
  | nil => simp [updateChat]
  | cons p rest ih =>
    obtain ⟨k, v⟩ := p
    by_cases h : k = c
    · simp [updateChat_cons, h]
    · simp [updateChat_cons, h, ih]

theorem lookupChat_isSome_iff_mem (l : List (Nat × ChatState)) (c : Nat) :
    (lookupChat l c).isSome = true ↔ c ∈ l.map Prod.fst := by
  induction l with
  | nil => simp [lookupChat]
  | cons p rest ih =>
    obtain ⟨k, v⟩ := p
    by_cases h : k = c
    · simp [lookupChat_cons, h]
    · simp [lookupChat_cons, h, ih, Ne.symm h]

theorem lookupChat_append_of_isSome (l l2 : List (Nat × ChatState)) (c : Nat)
    (h : (lookupChat l c).isSome = true) : lookupChat (l ++ l2) c = lookupChat l c := by
  induction l with
  | nil => simp [lookupChat] at h
  | cons p rest ih =>
    obtain ⟨k, v⟩ := p
    by_cases hp : k = c
    · simp [lookupChat_cons, hp]
    · rw [lookupChat_cons, if_neg hp] at h
      simp only [List.cons_append, lookupChat_cons, if_neg hp]
      exact ih h

theorem lookupChat_append_single_none (l : List (Nat × ChatState)) (c c' : Nat) (v : ChatState)
    (h : lookupChat l c' = none) :
    lookupChat (l ++ [(c, v)]) c' = if c = c' then some v else none := by
  induction l with
  | nil => simp [lookupChat]
  | cons p rest ih =>
    obtain ⟨k, w⟩ := p
    by_cases hp : k = c'
    · rw [lookupChat_cons, if_pos hp] at h
      simp at h
    · rw [lookupChat_cons, if_neg hp] at h
      simp only [List.cons_append, lookupChat_cons, if_neg hp]
      exact ih h

/-! ### `ensure` and `chat` lemmas -/

theorem lookupChat_eq_none (o : Option ChatState) (h : ¬o.isSome = true) : o = none := by
  cases o with
  | none => rfl
  | some v => simp at h

theorem ensure_chat (s : SysState) (c c' : Nat) : (s.ensure c).chat c' = s.chat c' := by
  unfold SysState.ensure SysState.chat
  by_cases h : (lookupChat s.chats c).isSome = true
  · simp [h]
  · have hone := lookupChat_eq_none _ h
    by_cases hc : (lookupChat s.chats c').isSome = true
    · rw [if_neg h]
      rw [lookupChat_append_of_isSome _ _ _ hc]
    · have hnone := lookupChat_eq_none _ hc
      rw [if_neg h]
      rw [lookupChat_append_single_none _ _ _ _ hnone, hnone]
      by_cases hcc : c = c'
      · simp [hcc, emptyChat]
      · simp [hcc]

theorem ensure_armed (s : SysState) (c : Nat) : (s.ensure c).armed = s.armed := by
  unfold SysState.ensure; split <;> rfl

theorem ensure_nextId (s : SysState) (c : Nat) : (s.ensure c).nextId = s.nextId := by
  unfold SysState.ensure; split <;> rfl

theorem ensure_sent (s : SysState) (c : Nat) : (s.ensure c).sent = s.sent := by
  unfold SysState.ensure; split <;> rfl

theorem ensure_log (s : SysState) (c : Nat) : (s.ensure c).log = s.log := by
  unfold SysState.ensure; split <;> rfl

theorem ensure_now (s : SysState) (c : Nat) : (s.ensure c).now = s.now := by
  unfold SysState.ensure; split <;> rfl

theorem ensure_of_isSome (s : SysState) (c : Nat) (h : (lookupChat s.chats c).isSome = true) :
    s.ensure c = s := by
  unfold SysState.ensure
  simp [h]

theorem ensure_isSome (s : SysState) (c : Nat) :
    (lookupChat (s.ensure c).chats c).isSome = true := by
  unfold SysState.ensure
  by_cases h : (lookupChat s.chats c).isSome = true
  · simp [h]
  · have hnone := lookupChat_eq_none _ h
    rw [if_neg h]
    rw [lookupChat_append_single_none _ _ _ _ hnone]
    simp

theorem ensure_isSome_mono (s : SysState) (c c' : Nat)
    (h : (lookupChat s.chats c').isSome = true) :
    (lookupChat (s.ensure c).chats c').isSome = true := by
  unfold SysState.ensure
  by_cases hc : (lookupChat s.chats c).isSome = true
  · simpa [hc] using h
  · rw [if_neg hc]
    rw [lookupChat_append_of_isSome _ _ _ h]
    exact h

theorem ensure_keys_nodup (s : SysState) (c : Nat)
    (h : (s.chats.map Prod.fst).Nodup) : ((s.ensure c).chats.map Prod.fst).Nodup := by
  unfold SysState.ensure
  by_cases hc : (lookupChat s.chats c).isSome = true
  · simpa [hc] using h
  · rw [if_neg hc]
    simp only [List.map_append, List.map_cons, List.map_nil]
    rw [List.nodup_append]
    refine ⟨h, by simp, ?_⟩
    intro a ha hb
    simp at hb
    subst hb
    rw [← lookupChat_isSome_iff_mem] at ha
    exact hc ha

/-! ### General invariant helpers -/

theorem lookupChat_mem (l : List (Nat × ChatState)) (c : Nat) (st : ChatState)
    (h : lookupChat l c = some st) : (c, st) ∈ l := by
  induction l with
  | nil => simp [lookupChat] at h
  | cons p rest ih =>
    obtain ⟨k, v⟩ := p
    by_cases hp : k = c
    · rw [lookupChat_cons, if_pos hp] at h
      subst hp
      simp at h
      simp [h]
    · rw [lookupChat_cons, if_neg hp] at h
      exact List.mem_cons_of_mem _ (ih h)

theorem lookupChat_of_mem_nodup (l : List (Nat × ChatState))
    (hnd : (l.map Prod.fst).Nodup) (c : Nat) (v : ChatState) (h : (c, v) ∈ l) :
    lookupChat l c = some v := by
  induction l with
  | nil => simp at h
  | cons p rest ih =>
    obtain ⟨k, w⟩ := p
    simp only [List.map_cons, List.nodup_cons] at hnd
    rcases List.mem_cons.mp h with h1 | h1
    · obtain ⟨hk, hv⟩ := Prod.mk.injEq .. ▸ h1
      injection h1 with hk hv
      rw [lookupChat_cons, if_pos hk.symm]
      rw [hv]
    · have hkc : k ≠ c := by
        intro hkc
        subst hkc
        exact hnd.1 (List.mem_map.mpr ⟨(k, v), h1, rfl⟩)
      rw [lookupChat_cons, if_neg hkc]
      exact ih hnd.2 h1

theorem mem_updateChat (l : List (Nat × ChatState)) (c : Nat) (st : ChatState)
    (p : Nat × ChatState) (hp : p ∈ updateChat l c st) : p = (c, st) ∨ p ∈ l := by
  induction l with
  | nil => simp [updateChat] at hp
  | cons q rest ih =>
    obtain ⟨k, v⟩ := q
    by_cases hk : k = c
    · subst hk
      rw [updateChat_cons, if_pos rfl] at hp
      rcases List.mem_cons.mp hp with h1 | h1
      · exact Or.inl h1
      · exact Or.inr (List.mem_cons_of_mem _ h1)
    · rw [updateChat_cons, if_neg hk] at hp
      rcases List.mem_cons.mp hp with h1 | h1
      · exact Or.inr (h1 ▸ List.mem_cons_self _ _)
      · rcases ih h1 with h2 | h2
        · exact Or.inl h2
        · exact Or.inr (List.mem_cons_of_mem _ h2)

theorem mem_ensure_chats (s : SysState) (c : Nat) (p : Nat × ChatState)
    (hp : p ∈ (s.ensure c).chats) : p ∈ s.chats ∨ p = (c, emptyChat) := by
  unfold SysState.ensure at hp
  by_cases h : (lookupChat s.chats c).isSome = true
  · rw [if_pos h] at hp
    exact Or.inl hp
  · rw [if_neg h] at hp
    simp only [List.mem_append, List.mem_singleton] at hp
    exact hp

/-- Two pending timers with the same handle are the same timer. -/
theorem armed_id_inj (s : SysState) (hnd : (s.armed.map Timer.id).Nodup)
    (t u : Timer) (ht : t ∈ s.armed) (hu : u ∈ s.armed) (h : t.id = u.id) : t = u :=
  List.inj_on_of_nodup_map hnd ht hu h

theorem emptyChat_get (sl : Slot) : emptyChat.reminders.get sl = none := by
  cases sl <;> rfl

theorem reminders_get_mem_handleList (r : Reminders) (sl : Slot) (i : Nat)
    (h : r.get sl = some i) : i ∈ r.handleList := by
  cases sl <;> simp [Reminders.get] at h <;> simp [Reminders.handleList, h]

theorem mem_handleList_get (r : Reminders) (i : Nat) (h : i ∈ r.handleList) :
    r.get Slot.morning = some i ∨ r.get Slot.evening = some i := by
  simp only [Reminders.handleList, List.mem_append, Option.mem_toList, Option.mem_def] at h
  exact h

/-- Under the invariant, the stored handle of any `(chat, slot)` — member chat
or not — points at a pending timer of that pair. -/
theorem Inv.slotTracked_all (s : SysState) (h : Inv s) (c : Nat) (sl : Slot) :
    slotTracked s c sl := by
  obtain ⟨h1, h2, h3, h4, h5⟩ := h
  by_cases hc : (lookupChat s.chats c).isSome = true
  · cases heq : lookupChat s.chats c with
    | none => rw [heq] at hc; simp at hc
    | some st =>
      have hmem := lookupChat_mem _ _ _ heq
      have := h5 (c, st) hmem
      cases sl
      · exact this.1
      · exact this.2
  · intro i hi
    have hnone := lookupChat_eq_none _ hc
    unfold SysState.chat at hi
    rw [hnone] at hi
    simp only [Option.getD_none] at hi
    rw [emptyChat_get] at hi
    simp at hi

/-- Under the invariant, a pending timer of chat `c` has its handle in `c`'s
handle list, and conversely a handle in `c`'s list belongs to a pending timer
of chat `c`; so clearing by the handle list clears exactly chat `c`'s timers. -/
theorem contains_handleList_iff (s : SysState) (h : Inv s) (c : Nat) (t : Timer)
    (ht : t ∈ s.armed) :
    ((s.chat c).reminders.handleList.contains t.id) = (t.chatId == c) := by
  obtain ⟨h1, h2, h3, h4, h5⟩ := h
  by_cases hc : t.chatId = c
  · subst hc
    have hget := (h1 t ht).1
    have : t.id ∈ (s.chat t.chatId).reminders.handleList :=
      reminders_get_mem_handleList _ _ _ hget
    simp [List.elem_iff, this]
  · have hnm : ¬ t.id ∈ (s.chat c).reminders.handleList := by
      intro hmem
      rcases mem_handleList_get _ _ hmem with hg | hg
      · obtain ⟨u, hu, hid, huc, _⟩ :=
          Inv.slotTracked_all s ⟨h1, h2, h3, h4, h5⟩ c Slot.morning t.id (by simp [hg])
        have heq := armed_id_inj s h2 t u ht hu hid.symm
        subst heq
        exact hc huc
      · obtain ⟨u, hu, hid, huc, _⟩ :=
          Inv.slotTracked_all s ⟨h1, h2, h3, h4, h5⟩ c Slot.evening t.id (by simp [hg])
        have heq := armed_id_inj s h2 t u ht hu hid.symm
        subst heq
        exact hc huc
    have h1b : ((s.chat c).reminders.handleList.contains t.id) = false := by
      simp [List.elem_iff, hnm]
    have h2b : (t.chatId == c) = false := by
      simpa using hc
    rw [h1b, h2b]

/-! ### `storeWindows` lemmas -/

theorem storeWindows_armed (c : Nat) (m e : Option String) (s : SysState) :
    (storeWindows c m e s).armed = s.armed := by
  unfold storeWindows
  rw [ensure_armed]

theorem storeWindows_nextId (c : Nat) (m e : Option String) (s : SysState) :
    (storeWindows c m e s).nextId = s.nextId := by
  unfold storeWindows
  rw [ensure_nextId]

theorem storeWindows_sent (c : Nat) (m e : Option String) (s : SysState) :
    (storeWindows c m e s).sent = s.sent := by
  unfold storeWindows
  rw [ensure_sent]

theorem storeWindows_now (c : Nat) (m e : Option String) (s : SysState) :
    (storeWindows c m e s).now = s.now := by
  unfold storeWindows
  rw [ensure_now]

theorem storeWindows_chat_self (c : Nat) (m e : Option String) (s : SysState) :
    (storeWindows c m e s).chat c =
      { windows := ⟨m, e⟩, reminders := (s.chat c).reminders } := by
  unfold storeWindows SysState.chat
  simp only
  rw [lookupChat_updateChat_self, if_pos (ensure_isSome s c)]
  simp only [Option.getD_some]
  have : (s.ensure c).chat c = s.chat c := ensure_chat s c c
  unfold SysState.chat at this
  rw [this]

theorem storeWindows_chat_ne (c c' : Nat) (m e : Option String) (s : SysState)
    (h : c' ≠ c) : (storeWindows c m e s).chat c' = s.chat c' := by
  unfold storeWindows SysState.chat
  simp only
  rw [lookupChat_updateChat_ne _ _ _ _ h]
  have : (s.ensure c).chat c' = s.chat c' := ensure_chat s c c'
  unfold SysState.chat at this
  rw [this]

theorem storeWindows_isSome (c c' : Nat) (m e : Option String) (s : SysState)
    (h : (lookupChat s.chats c').isSome = true) :
    (lookupChat (storeWindows c m e s).chats c').isSome = true := by
  unfold storeWindows
  simp only
  by_cases hc : c' = c
  · subst hc
    rw [lookupChat_updateChat_self, if_pos (ensure_isSome s c')]
    rfl
  · rw [lookupChat_updateChat_ne _ _ _ _ hc]
    exact ensure_isSome_mono s c c' h

theorem storeWindows_keys_nodup (c : Nat) (m e : Option String) (s : SysState)
    (h : (s.chats.map Prod.fst).Nodup) :
    ((storeWindows c m e s).chats.map Prod.fst).Nodup := by
  unfold storeWindows
  simp only
  rw [updateChat_keys]
  exact ensure_keys_nodup s c h

theorem storeWindows_reminders (c c' : Nat) (m e : Option String) (s : SysState) :
    ((storeWindows c m e s).chat c').reminders = (s.chat c').reminders := by
  by_cases h : c' = c
  · subst h
    rw [storeWindows_chat_self]
  · rw [storeWindows_chat_ne _ _ _ _ _ h]

theorem inv_storeWindows (s : SysState) (h : Inv s) (c : Nat) (m e : Option String) :
    Inv (storeWindows c m e s) := by
  obtain ⟨h1, h2, h3, h4, h5⟩ := h
  refine ⟨?_, ?_, ?_, ?_, ?_⟩
  · intro t ht
    rw [storeWindows_armed] at ht
    rw [storeWindows_reminders]
    exact ⟨(h1 t ht).1, storeWindows_isSome _ _ _ _ _ (h1 t ht).2⟩
  · rw [storeWindows_armed]; exact h2
  · intro t ht
    rw [storeWindows_armed] at ht
    rw [storeWindows_nextId]
    exact h3 t ht
  · exact storeWindows_keys_nodup _ _ _ _ h4
  · intro p hp
    have hall : ∀ sl, slotTracked (storeWindows c m e s) p.1 sl := by
      intro sl i hi
      rw [storeWindows_reminders] at hi
      obtain ⟨t, htm, hrest⟩ :=
        Inv.slotTracked_all s ⟨h1, h2, h3, h4, h5⟩ p.1 sl i hi
      exact ⟨t, by rw [storeWindows_armed]; exact htm, hrest⟩
    exact ⟨hall Slot.morning, hall Slot.evening⟩

/-! ### `clearChatReminders` lemmas -/

theorem clearAll_get (sl : Slot) : Reminders.clearAll.get sl = none := by
  cases sl <;> rfl

theorem clear_nextId (c : Nat) (s : SysState) :
    (clearChatReminders c s).nextId = s.nextId := by
  unfold clearChatReminders
  rw [ensure_nextId]

theorem clear_sent (c : Nat) (s : SysState) :
    (clearChatReminders c s).sent = s.sent := by
  unfold clearChatReminders
  rw [ensure_sent]

theorem clear_log (c : Nat) (s : SysState) :
    (clearChatReminders c s).log = s.log := by
  unfold clearChatReminders
  rw [ensure_log]

theorem clear_now (c : Nat) (s : SysState) :
    (clearChatReminders c s).now = s.now := by
  unfold clearChatReminders
  rw [ensure_now]

/-- Under the invariant, clearing by the stored handle list removes exactly
the chat's pending timers. -/
theorem clear_armed (c : Nat) (s : SysState) (h : Inv s) :
    (clearChatReminders c s).armed = s.armed.filter (fun t => !(t.chatId == c)) := by
  unfold clearChatReminders
  simp only [ensure_armed]
  have hch : (s.ensure c).chat c = s.chat c := ensure_chat s c c
  rw [hch]
  apply List.filter_congr
  intro t ht
  rw [contains_handleList_iff s h c t ht]

theorem clear_chat_self (c : Nat) (s : SysState) :
    (clearChatReminders c s).chat c =
      { windows := (s.chat c).windows, reminders := ⟨none, none⟩ } := by
  unfold clearChatReminders SysState.chat
  simp only
  rw [lookupChat_updateChat_self, if_pos (ensure_isSome s c)]
  simp only [Option.getD_some]
  have hch : (s.ensure c).chat c = s.chat c := ensure_chat s c c
  unfold SysState.chat at hch
  rw [hch]
  rfl

theorem clear_chat_ne (c c' : Nat) (s : SysState) (h : c' ≠ c) :
    (clearChatReminders c s).chat c' = s.chat c' := by
  unfold clearChatReminders SysState.chat
  simp only
  rw [lookupChat_updateChat_ne _ _ _ _ h]
  have hch : (s.ensure c).chat c' = s.chat c' := ensure_chat s c c'
  unfold SysState.chat at hch
  rw [hch]

theorem clear_isSome (c c' : Nat) (s : SysState)
    (h : (lookupChat s.chats c').isSome = true) :
    (lookupChat (clearChatReminders c s).chats c').isSome = true := by
  unfold clearChatReminders
  simp only
  by_cases hc : c' = c
  · subst hc
    rw [lookupChat_updateChat_self, if_pos (ensure_isSome s c')]
    rfl
  · rw [lookupChat_updateChat_ne _ _ _ _ hc]
    exact ensure_isSome_mono s c c' h

theorem clear_keys_nodup (c : Nat) (s : SysState) (h : (s.chats.map Prod.fst).Nodup) :
    ((clearChatReminders c s).chats.map Prod.fst).Nodup := by
  unfold clearChatReminders
  simp only
  rw [updateChat_keys]
  exact ensure_keys_nodup s c h

theorem clear_chats_shape (c : Nat) (s : SysState) :
    ∃ stc : ChatState, stc.reminders = Reminders.clearAll ∧
      (clearChatReminders c s).chats = updateChat (s.ensure c).chats c stc := by
  unfold clearChatReminders
  exact ⟨_, rfl, rfl⟩

theorem inv_clearChatReminders (c : Nat) (s : SysState) (h : Inv s) :
    Inv (clearChatReminders c s) := by
  have harm := clear_armed c s h
  obtain ⟨h1, h2, h3, h4, h5⟩ := h
  refine ⟨?_, ?_, ?_, ?_, ?_⟩
  · intro t ht
    rw [harm] at ht
    obtain ⟨htm, hne⟩ := List.mem_filter.mp ht
    have hnec : t.chatId ≠ c := by simpa using hne
    rw [clear_chat_ne _ _ _ hnec]
    exact ⟨(h1 t htm).1, clear_isSome _ _ _ (h1 t htm).2⟩
  · rw [harm]
    exact h2.sublist ((List.filter_sublist s.armed).map Timer.id)
  · intro t ht
    rw [harm] at ht
    rw [clear_nextId]
    exact h3 t (List.mem_filter.mp ht).1
  · exact clear_keys_nodup c s h4
  · intro p hp
    have hvac : ∀ sl, slotTracked (clearChatReminders c s) c sl := by
      intro sl i hi
      rw [clear_chat_self] at hi
      simp only at hi
      rw [show (⟨(s.chat c).windows, ⟨none, none⟩⟩ : ChatState).reminders.get sl
            = Reminders.clearAll.get sl from rfl, clearAll_get] at hi
      simp at hi
    have hother : ∀ c', c' ≠ c → ∀ sl, slotTracked (clearChatReminders c s) c' sl := by
      intro c' hne sl i hi
      rw [clear_chat_ne _ _ _ hne] at hi
      obtain ⟨t, htm, hid, hcc, hsl⟩ :=
        Inv.slotTracked_all s ⟨h1, h2, h3, h4, h5⟩ c' sl i hi
      refine ⟨t, ?_, hid, hcc, hsl⟩
      rw [harm]
      apply List.mem_filter.mpr
      refine ⟨htm, ?_⟩
      simp [hcc, hne]
    by_cases hc : p.1 = c
    · rw [hc]
      exact ⟨hvac Slot.morning, hvac Slot.evening⟩
    · exact ⟨hother p.1 hc Slot.morning, hother p.1 hc Slot.evening⟩

/-- After `clearChatReminders`, the chat has no pending timer in either slot. -/
theorem clear_armedFor (c : Nat) (sl : Slot) (s : SysState) (h : Inv s) :
    armedFor (clearChatReminders c s) c sl = [] := by
  unfold armedFor
  rw [clear_armed c s h, List.filter_filter]
  apply List.eq_nil_of_length_eq_zero
  rw [List.length_eq_zero]
  apply List.filter_eq_nil_iff.mpr
  intro t ht
  by_cases hc : t.chatId = c
  · simp [hc]
  · simp [hc]

/-! ### `scheduleReminder` lemmas -/

theorem reminders_get_set_self (r : Reminders) (sl : Slot) (v : Option Nat) :
    (r.set sl v).get sl = v := by
  cases sl <;> rfl

theorem reminders_get_set_ne (r : Reminders) (sl sl' : Slot) (v : Option Nat)
    (h : sl' ≠ sl) : (r.set sl v).get sl' = r.get sl' := by
  cases sl <;> cases sl' <;> first | rfl | exact absurd rfl h

theorem schedule_nextId (c : Nat) (sl : Slot) (w : String) (s : SysState) :
    (scheduleReminder c sl w s).nextId = s.nextId + 1 := by
  simp only [scheduleReminder]
  cases hget : ((s.ensure c).chat c).reminders.get sl <;>
    simp [hget, ensure_nextId]

theorem schedule_sent (c : Nat) (sl : Slot) (w : String) (s : SysState) :
    (scheduleReminder c sl w s).sent = s.sent := by
  simp only [scheduleReminder]
  cases hget : ((s.ensure c).chat c).reminders.get sl <;>
    simp [hget, ensure_sent]

theorem schedule_log (c : Nat) (sl : Slot) (w : String) (s : SysState) :
    (scheduleReminder c sl w s).log = s.log := by
  simp only [scheduleReminder]
  cases hget : ((s.ensure c).chat c).reminders.get sl <;>
    simp [hget, ensure_log]

theorem schedule_now (c : Nat) (sl : Slot) (w : String) (s : SysState) :
    (scheduleReminder c sl w s).now = s.now := by
  simp only [scheduleReminder]
  cases hget : ((s.ensure c).chat c).reminders.get sl <;>
    simp [hget, ensure_now]

theorem schedule_chat_self (c : Nat) (sl : Slot) (w : String) (s : SysState) :
    (scheduleReminder c sl w s).chat c =
      { windows := (s.chat c).windows,
        reminders := (s.chat c).reminders.set sl (some s.nextId) } := by
  have hch : (s.ensure c).chat c = s.chat c := ensure_chat s c c
  simp only [scheduleReminder]
  cases hget : ((s.ensure c).chat c).reminders.get sl <;>
  · simp only [hget, SysState.chat]
    rw [lookupChat_updateChat_self, if_pos (ensure_isSome s c)]
    unfold SysState.chat at hch
    rw [hch]
    simp [ensure_nextId]

theorem schedule_chat_ne (c c' : Nat) (sl : Slot) (w : String) (s : SysState)
    (h : c' ≠ c) : (scheduleReminder c sl w s).chat c' = s.chat c' := by
  have hch : (s.ensure c).chat c' = s.chat c' := ensure_chat s c c'
  simp only [scheduleReminder]
  cases hget : ((s.ensure c).chat c).reminders.get sl <;>
  · simp only [hget, SysState.chat]
    rw [lookupChat_updateChat_ne _ _ _ _ h]
    unfold SysState.chat at hch
    exact hch

theorem schedule_isSome (c c' : Nat) (sl : Slot) (w : String) (s : SysState)
    (h : (lookupChat s.chats c').isSome = true) :
    (lookupChat (scheduleReminder c sl w s).chats c').isSome = true := by
  simp only [scheduleReminder]
  cases hget : ((s.ensure c).chat c).reminders.get sl <;>
  · simp only [hget]
    by_cases hc : c' = c
    · subst hc
      rw [lookupChat_updateChat_self, if_pos (ensure_isSome s c')]
      rfl
    · rw [lookupChat_updateChat_ne _ _ _ _ hc]
      exact ensure_isSome_mono s c c' h

theorem schedule_isSome_self (c : Nat) (sl : Slot) (w : String) (s : SysState) :
    (lookupChat (scheduleReminder c sl w s).chats c).isSome = true := by
  simp only [scheduleReminder]
  cases hget : ((s.ensure c).chat c).reminders.get sl <;>
  · simp only [hget]
    rw [lookupChat_updateChat_self, if_pos (ensure_isSome s c)]
    rfl

theorem schedule_keys_nodup (c : Nat) (sl : Slot) (w : String) (s : SysState)
    (h : (s.chats.map Prod.fst).Nodup) :
    ((scheduleReminder c sl w s).chats.map Prod.fst).Nodup := by
  simp only [scheduleReminder]
  cases hget : ((s.ensure c).chat c).reminders.get sl <;>
  · simp only [hget]
    rw [updateChat_keys]
    exact ensure_keys_nodup s c h

/-- Under the invariant, arming a slot removes exactly the slot's previous
pending timer (if any) — because the cleared handle is that timer's — and
appends the fresh one. -/
theorem scheduleReminder_armed_spec (c : Nat) (sl : Slot) (w : String) (s : SysState)
    (h : Inv s) :
    (scheduleReminder c sl w s).armed =
      s.armed.filter (fun t => !(t.chatId == c && t.slot == sl)) ++ [newTimer c sl w s] := by
  have hch : (s.ensure c).chat c = s.chat c := ensure_chat s c c
  obtain ⟨h1, h2, h3, h4, h5⟩ := h
  simp only [scheduleReminder, newTimer]
  rw [hch]
  cases hget : (s.chat c).reminders.get sl with
  | none =>
    simp only [hget, ensure_armed, ensure_nextId, ensure_now]
    congr 1
    symm
    nth_rewrite 2 [show s.armed = s.armed.filter
        (fun t => !(t.chatId == c && t.slot == sl)) from ?_]
    · rfl
    · symm
      apply List.filter_eq_self.mpr
      intro t ht
      by_cases hc : t.chatId = c ∧ t.slot = sl
      · exfalso
        have hg := (h1 t ht).1
        rw [hc.1, hc.2] at hg
        rw [hget] at hg
        simp at hg
      · rcases not_and_or.mp hc with hne | hne <;> simp [hne]
  | some existing =>
    simp only [hget, ensure_armed, ensure_nextId, ensure_now]
    congr 1
    obtain ⟨u, hu, huid, huc, husl⟩ :=
      Inv.slotTracked_all s ⟨h1, h2, h3, h4, h5⟩ c sl existing (by simp [hget])
    apply List.filter_congr
    intro t ht
    by_cases hid : t.id = existing
    · have heqt := armed_id_inj s h2 t u ht hu (by rw [hid, huid])
      subst heqt
      simp [hid, huc, husl]
    · have hrhs : ¬(t.chatId = c ∧ t.slot = sl) := by
        intro hcs
        have hg := (h1 t ht).1
        rw [hcs.1, hcs.2] at hg
        rw [hget] at hg
        simp at hg
        exact hid hg.symm
      have hL : (t.id == existing) = false := by simp [hid]
      have hR : (t.chatId == c && t.slot == sl) = false := by
        rcases not_and_or.mp hrhs with hne | hne
        · have hx : (t.chatId == c) = false := by simp [hne]
          rw [hx, Bool.false_and]
        · have hx : (t.slot == sl) = false := by
            simp only [beq_eq_false_iff_ne, ne_eq]
            exact hne
          rw [hx, Bool.and_false]
      rw [hL, hR]

theorem inv_scheduleReminder (c : Nat) (sl : Slot) (w : String) (s : SysState)
    (h : Inv s) : Inv (scheduleReminder c sl w s) := by
  have harm := scheduleReminder_armed_spec c sl w s h
  obtain ⟨h1, h2, h3, h4, h5⟩ := h
  have hInv : Inv s := ⟨h1, h2, h3, h4, h5⟩
  refine ⟨?_, ?_, ?_, ?_, ?_⟩
  · intro t ht
    rw [harm] at ht
    rcases List.mem_append.mp ht with hmem | hmem
    · obtain ⟨htm, hne⟩ := List.mem_filter.mp hmem
      by_cases hc : t.chatId = c
      · have hsl : t.slot ≠ sl := by
          intro hsl
          rw [hc, hsl] at hne
          simp at hne
        rw [hc, schedule_chat_self]
        simp only
        rw [reminders_get_set_ne _ _ _ _ hsl]
        have hg := (h1 t htm).1
        rw [hc] at hg
        exact ⟨hg, schedule_isSome_self _ _ _ _⟩
      · rw [schedule_chat_ne _ _ _ _ _ hc]
        exact ⟨(h1 t htm).1, schedule_isSome _ _ _ _ _ (h1 t htm).2⟩
    · simp only [List.mem_singleton] at hmem
      subst hmem
      simp only [newTimer]
      rw [schedule_chat_self]
      simp only
      rw [reminders_get_set_self]
      exact ⟨rfl, schedule_isSome_self _ _ _ _⟩
  · rw [harm]
    simp only [List.map_append, List.map_cons, List.map_nil]
    rw [List.nodup_append]
    refine ⟨h2.sublist ((List.filter_sublist s.armed).map Timer.id), by simp, ?_⟩
    intro a ha hb
    simp only [List.mem_singleton] at hb
    subst hb
    simp only [List.mem_map] at ha
    obtain ⟨t, htm, hid⟩ := ha
    have hlt := h3 t (List.mem_filter.mp htm).1
    rw [hid] at hlt
    simp only [newTimer] at hlt
    omega
  · intro t ht
    rw [harm] at ht
    rw [schedule_nextId]
    rcases List.mem_append.mp ht with hmem | hmem
    · have hlt := h3 t (List.mem_filter.mp hmem).1
      omega
    · simp only [List.mem_singleton] at hmem
      subst hmem
      simp [newTimer]
  · exact schedule_keys_nodup _ _ _ _ h4
  · intro p hp
    have hgen : ∀ c₀ sl₀, slotTracked (scheduleReminder c sl w s) c₀ sl₀ := by
      intro c₀ sl₀ i hi
      by_cases hc : c₀ = c
      · subst hc
        rw [schedule_chat_self] at hi
        simp only at hi
        by_cases hsl : sl₀ = sl
        · subst hsl
          rw [reminders_get_set_self] at hi
          simp only [Option.toList_some, List.mem_singleton] at hi
          subst hi
          refine ⟨newTimer c₀ sl₀ w s, ?_, rfl, rfl, rfl⟩
          rw [harm]
          simp
        · rw [reminders_get_set_ne _ _ _ _ hsl] at hi
          obtain ⟨u, hu, huid, huc, husl⟩ :=
            Inv.slotTracked_all s hInv c₀ sl₀ i hi
          refine ⟨u, ?_, huid, huc, husl⟩
          rw [harm]
          apply List.mem_append_left
          apply List.mem_filter.mpr
          refine ⟨hu, ?_⟩
          have husl2 : u.slot ≠ sl := by rw [husl]; exact hsl
          simp [husl2]
      · rw [schedule_chat_ne _ _ _ _ _ hc] at hi
        obtain ⟨u, hu, huid, huc, husl⟩ :=
          Inv.slotTracked_all s hInv c₀ sl₀ i hi
        refine ⟨u, ?_, huid, huc, husl⟩
        rw [harm]
        apply List.mem_append_left
        apply List.mem_filter.mpr
        refine ⟨hu, ?_⟩
        have huc2 : u.chatId ≠ c := by rw [huc]; exact hc
        simp [huc2]
    exact ⟨hgen p.1 Slot.morning, hgen p.1 Slot.evening⟩

/-- Arming a slot leaves it with exactly its fresh timer pending. -/
theorem schedule_armedFor_self (c : Nat) (sl : Slot) (w : String) (s : SysState)
    (h : Inv s) :
    armedFor (scheduleReminder c sl w s) c sl = [newTimer c sl w s] := by
  unfold armedFor
  rw [scheduleReminder_armed_spec c sl w s h, List.filter_append, List.filter_filter]
  have hz : (s.armed.filter
      (fun a => (a.chatId == c && a.slot == sl) && !(a.chatId == c && a.slot == sl))) = [] := by
    apply List.filter_eq_nil_iff.mpr
    intro t ht
    simp
  rw [hz]
  simp [newTimer]

/-- Arming one slot does not touch any other `(chat, slot)` pair's timers. -/
theorem schedule_armedFor_other (c c' : Nat) (sl sl' : Slot) (w : String) (s : SysState)
    (h : Inv s) (hne : ¬(c' = c ∧ sl' = sl)) :
    armedFor (scheduleReminder c sl w s) c' sl' = armedFor s c' sl' := by
  unfold armedFor
  rw [scheduleReminder_armed_spec c sl w s h, List.filter_append, List.filter_filter]
  have hnew : ((newTimer c sl w s).chatId == c' && (newTimer c sl w s).slot == sl') = false := by
    simp only [newTimer]
    by_cases hc : c = c'
    · have hsl : sl ≠ sl' := fun hx => hne ⟨hc.symm, hx.symm⟩
      have hx : (sl == sl') = false := by
        simp only [beq_eq_false_iff_ne, ne_eq]
        exact hsl
      simp [hx]
    · have hx : (c == c') = false := by simp [hc]
      simp [hx]
  have hcongr : s.armed.filter
      (fun a => (a.chatId == c' && a.slot == sl') && !(a.chatId == c && a.slot == sl)) =
      s.armed.filter (fun a => a.chatId == c' && a.slot == sl') := by
    apply List.filter_congr
    intro t ht
    by_cases hp : t.chatId = c' ∧ t.slot = sl'
    · have hnp : ¬(t.chatId = c ∧ t.slot = sl) := by
        intro hq
        exact hne ⟨hp.1 ▸ hq.1 ▸ rfl, hp.2 ▸ hq.2 ▸ rfl⟩
      have hnpb : (t.chatId == c && t.slot == sl) = false := by
        rcases not_and_or.mp hnp with hx | hx
        · have hb : (t.chatId == c) = false := by simp [hx]
          rw [hb, Bool.false_and]
        · have hb : (t.slot == sl) = false := by
            simp only [beq_eq_false_iff_ne, ne_eq]
            exact hx
          rw [hb, Bool.and_false]
      rw [hnpb]
      simp
    · rcases not_and_or.mp hp with hx | hx
      · have hb : (t.chatId == c') = false := by simp [hx]
        rw [hb]
        simp
      · have hb : (t.slot == sl') = false := by
          simp only [beq_eq_false_iff_ne, ne_eq]
          exact hx
        rw [hb]
        simp
  rw [hcongr]
  simp [hnew]

/-! ### `mirrorConfirm` lemmas -/

theorem mirror_armed (c : Nat) (tgt : Option Nat) (s : SysState) :
    (mirrorConfirm c tgt s).armed = s.armed := by
  unfold mirrorConfirm
  cases tgt with
  | none => rfl
  | some g => by_cases hg : g ≠ c <;> simp [hg]

theorem mirror_chats (c : Nat) (tgt : Option Nat) (s : SysState) :
    (mirrorConfirm c tgt s).chats = s.chats := by
  unfold mirrorConfirm
  cases tgt with
  | none => rfl
  | some g => by_cases hg : g ≠ c <;> simp [hg]

theorem mirror_nextId (c : Nat) (tgt : Option Nat) (s : SysState) :
    (mirrorConfirm c tgt s).nextId = s.nextId := by
  unfold mirrorConfirm
  cases tgt with
  | none => rfl
  | some g => by_cases hg : g ≠ c <;> simp [hg]

theorem mirror_chat (c c' : Nat) (tgt : Option Nat) (s : SysState) :
    (mirrorConfirm c tgt s).chat c' = s.chat c' := by
  unfold SysState.chat
  rw [mirror_chats]

theorem mirror_armedFor (c c' : Nat) (sl : Slot) (tgt : Option Nat) (s : SysState) :
    armedFor (mirrorConfirm c tgt s) c' sl = armedFor s c' sl := by
  unfold armedFor
  rw [mirror_armed]

theorem inv_mirrorConfirm (c : Nat) (tgt : Option Nat) (s : SysState) (h : Inv s) :
    Inv (mirrorConfirm c tgt s) := by
  obtain ⟨h1, h2, h3, h4, h5⟩ := h
  refine ⟨?_, ?_, ?_, ?_, ?_⟩
  · intro t ht
    rw [mirror_armed] at ht
    rw [mirror_chat]
    constructor
    · exact (h1 t ht).1
    · rw [mirror_chats]
      exact (h1 t ht).2
  · rw [mirror_armed]; exact h2
  · intro t ht
    rw [mirror_armed] at ht
    rw [mirror_nextId]
    exact h3 t ht
  · rw [mirror_chats]; exact h4
  · intro p hp
    rw [mirror_chats] at hp
    have hgen : ∀ sl, slotTracked (mirrorConfirm c tgt s) p.1 sl := by
      intro sl i hi
      rw [mirror_chat] at hi
      obtain ⟨t, htm, hrest⟩ := Inv.slotTracked_all s ⟨h1, h2, h3, h4, h5⟩ p.1 sl i hi
      exact ⟨t, by rw [mirror_armed]; exact htm, hrest⟩
    exact ⟨hgen Slot.morning, hgen Slot.evening⟩

/-! ### `/set_windows` lemmas -/

theorem setWindows_error_usage (c : Nat) (args : List String) (tgt : Option Nat)
    (s : SysState) (h : args.length = 0 ∨ args.length > 2) :
    setWindowsCommand c args tgt s = (s, Reply.usageError) := by
  unfold setWindowsCommand
  rw [if_pos h]

theorem setWindows_error_format (c : Nat) (args : List String) (tgt : Option Nat)
    (s : SysState) (hlen : ¬(args.length = 0 ∨ args.length > 2))
    (hval : args.all isValidTimeWindow = false) :
    setWindowsCommand c args tgt s = (s, Reply.formatError) := by
  unfold setWindowsCommand
  rw [if_neg hlen, if_pos (by simp [hval])]

/-- Success path of `/set_windows`, one argument: morning set, evening nulled,
exactly one timer pending for the morning slot and none for the evening slot. -/
theorem setWindows_success_one (c : Nat) (a : String) (tgt : Option Nat) (s : SysState)
    (h : Inv s) (hval : isValidTimeWindow a = true) :
    Inv (setWindowsCommand c [a] tgt s).1 ∧
    ((setWindowsCommand c [a] tgt s).1.chat c).windows = ⟨some a, none⟩ ∧
    (armedFor (setWindowsCommand c [a] tgt s).1 c Slot.morning).length = 1 ∧
    armedFor (setWindowsCommand c [a] tgt s).1 c Slot.evening = [] ∧
    (setWindowsCommand c [a] tgt s).2 = Reply.setConfirm a none := by
  have hsimp : setWindowsCommand c [a] tgt s =
      (mirrorConfirm c tgt
        (scheduleReminder c Slot.morning a
          (clearChatReminders c (storeWindows c (some a) none s))),
       Reply.setConfirm a none) := by
    unfold setWindowsCommand
    rw [if_neg (by simp), if_neg (by simp [hval])]
    rfl
  rw [hsimp]
  set s0 := storeWindows c (some a) none s with hs0
  have hInv0 : Inv s0 := inv_storeWindows s h c (some a) none
  set s1 := clearChatReminders c s0 with hs1
  have hInv1 : Inv s1 := inv_clearChatReminders c s0 hInv0
  set s2 := scheduleReminder c Slot.morning a s1 with hs2
  have hInv2 : Inv s2 := inv_scheduleReminder c Slot.morning a s1 hInv1
  refine ⟨inv_mirrorConfirm c tgt s2 hInv2, ?_, ?_, ?_, rfl⟩
  · rw [mirror_chat, hs2, schedule_chat_self]
    simp only
    rw [hs1, clear_chat_self]
    simp only
    rw [hs0, storeWindows_chat_self]
  · rw [mirror_armedFor, hs2, schedule_armedFor_self c Slot.morning a s1 hInv1]
    rfl
  · rw [mirror_armedFor, hs2,
      schedule_armedFor_other c c Slot.morning Slot.evening a s1 hInv1 (by simp),
      hs1, clear_armedFor c Slot.evening s0 hInv0]

/-- Success path of `/set_windows`, two arguments: both windows stored and
exactly one timer pending per slot. -/
theorem setWindows_success_two (c : Nat) (a b : String) (tgt : Option Nat) (s : SysState)
    (h : Inv s) (hva : isValidTimeWindow a = true) (hvb : isValidTimeWindow b = true) :
    Inv (setWindowsCommand c [a, b] tgt s).1 ∧
    ((setWindowsCommand c [a, b] tgt s).1.chat c).windows = ⟨some a, some b⟩ ∧
    (armedFor (setWindowsCommand c [a, b] tgt s).1 c Slot.morning).length = 1 ∧
    (armedFor (setWindowsCommand c [a, b] tgt s).1 c Slot.evening).length = 1 ∧
    (setWindowsCommand c [a, b] tgt s).2 = Reply.setConfirm a (some b) := by
  have hsimp : setWindowsCommand c [a, b] tgt s =
      (mirrorConfirm c tgt
        (scheduleReminder c Slot.evening b
          (scheduleReminder c Slot.morning a
            (clearChatReminders c (storeWindows c (some a) (some b) s)))),
       Reply.setConfirm a (some b)) := by
    unfold setWindowsCommand
    rw [if_neg (by simp), if_neg (by simp [hva, hvb])]
    rfl
  rw [hsimp]
  set s0 := storeWindows c (some a) (some b) s with hs0
  have hInv0 : Inv s0 := inv_storeWindows s h c (some a) (some b)
  set s1 := clearChatReminders c s0 with hs1
  have hInv1 : Inv s1 := inv_clearChatReminders c s0 hInv0
  set s2 := scheduleReminder c Slot.morning a s1 with hs2
  have hInv2 : Inv s2 := inv_scheduleReminder c Slot.morning a s1 hInv1
  set s3 := scheduleReminder c Slot.evening b s2 with hs3
  have hInv3 : Inv s3 := inv_scheduleReminder c Slot.evening b s2 hInv2
  refine ⟨inv_mirrorConfirm c tgt s3 hInv3, ?_, ?_, ?_, rfl⟩
  · rw [mirror_chat, hs3, schedule_chat_self]
    simp only
    rw [hs2, schedule_chat_self]
    simp only
    rw [hs1, clear_chat_self]
    simp only
    rw [hs0, storeWindows_chat_self]
  · rw [mirror_armedFor, hs3,
      schedule_armedFor_other c c Slot.evening Slot.morning b s2 hInv2 (by simp),
      hs2, schedule_armedFor_self c Slot.morning a s1 hInv1]
    rfl
  · rw [mirror_armedFor, hs3, schedule_armedFor_self c Slot.evening b s2 hInv2]
    rfl

/-! ### Invariant transport and shutdown -/

theorem slotTracked_transport (s s' : SysState) (c : Nat) (sl : Slot)
    (hc : s'.chats = s.chats) (ha : s'.armed = s.armed)
    (h : slotTracked s c sl) : slotTracked s' c sl := by
  intro i hi
  have hchat : s'.chat c = s.chat c := by
    unfold SysState.chat
    rw [hc]
  rw [hchat] at hi
  obtain ⟨t, htm, hrest⟩ := h i hi
  exact ⟨t, by rw [ha]; exact htm, hrest⟩

/-- The invariant only looks at the registry, the pending timers and the
handle counter; states agreeing there share it. -/
theorem inv_transport (s s' : SysState) (h : Inv s) (hc : s'.chats = s.chats)
    (ha : s'.armed = s.armed) (hn : s'.nextId = s.nextId) : Inv s' := by
  obtain ⟨h1, h2, h3, h4, h5⟩ := h
  have hchat : ∀ c, s'.chat c = s.chat c := by
    intro c
    unfold SysState.chat
    rw [hc]
  refine ⟨?_, ?_, ?_, ?_, ?_⟩
  · intro t ht
    rw [ha] at ht
    rw [hchat, hc]
    exact h1 t ht
  · rw [ha]; exact h2
  · intro t ht
    rw [ha] at ht
    rw [hn]
    exact h3 t ht
  · rw [hc]; exact h4
  · intro p hp
    rw [hc] at hp
    exact ⟨slotTracked_transport s s' p.1 Slot.morning hc ha (h5 p hp).1,
           slotTracked_transport s s' p.1 Slot.evening hc ha (h5 p hp).2⟩

/-- Folding `clearChatReminders` over a key list covering every pending
timer's chat empties the pending set and touches neither the dispatch log nor
the stored windows' registry keys. -/
theorem clearAll_go (L : List Nat) (acc : SysState) (hInv : Inv acc)
    (hmem : ∀ t ∈ acc.armed, t.chatId ∈ L) :
    Inv (L.foldl (fun a c => clearChatReminders c a) acc) ∧
    (L.foldl (fun a c => clearChatReminders c a) acc).armed = [] ∧
    (L.foldl (fun a c => clearChatReminders c a) acc).sent = acc.sent := by
  induction L generalizing acc with
  | nil =>
    refine ⟨hInv, ?_, rfl⟩
    simp only [List.foldl_nil]
    cases harm : acc.armed with
    | nil => rfl
    | cons t ts =>
      exact absurd (hmem t (by rw [harm]; exact List.mem_cons_self _ _)) (by simp)
  | cons c L ih =>
    simp only [List.foldl_cons]
    have hInv' : Inv (clearChatReminders c acc) := inv_clearChatReminders c acc hInv
    have hmem' : ∀ t ∈ (clearChatReminders c acc).armed, t.chatId ∈ L := by
      intro t ht
      rw [clear_armed c acc hInv] at ht
      obtain ⟨htm, hne⟩ := List.mem_filter.mp ht
      have hne2 : t.chatId ≠ c := by simpa using hne
      rcases List.mem_cons.mp (hmem t htm) with hx | hx
      · exact absurd hx hne2
      · exact hx
    obtain ⟨ha, hb, hc2⟩ := ih (clearChatReminders c acc) hInv' hmem'
    exact ⟨ha, hb, by rw [hc2, clear_sent]⟩

/-- Shutdown clears every pending timer (the registry lists every chat that
owns one). -/
theorem clearAll_spec (s : SysState) (h : Inv s) :
    Inv (clearAllRemindersAllChats s) ∧
    (clearAllRemindersAllChats s).armed = [] ∧
    (clearAllRemindersAllChats s).sent = s.sent := by
  unfold clearAllRemindersAllChats
  apply clearAll_go (s.chats.map Prod.fst) s h
  intro t ht
  exact (lookupChat_isSome_iff_mem _ _).mp (h.1 t ht).2

/-- A fire attempt on a state with no pending timer is a no-op. -/
theorem fireTimer_no_armed (tid : Nat) (tr : Except String Unit) (s : SysState)
    (h : s.armed = []) : fireTimer tid tr s = s := by
  unfold fireTimer
  rw [h]
  rfl

/-! ### `fireTimer` lemmas -/

theorem sendToChat_never_raises (m : String) (c : Nat) (tr : Except String Unit)
    (s : SysState) : ∃ s2, sendToChat m c tr s = Except.ok s2 := by
  cases tr with
  | ok u => exact ⟨_, rfl⟩
  | error e => exact ⟨_, rfl⟩

theorem sendToChat_ok (m : String) (c : Nat) (s : SysState) :
    sendToChat m c (Except.ok ()) s = Except.ok { s with sent := s.sent ++ [(c, m)] } := rfl

theorem sendToChat_err (m : String) (c : Nat) (e : String) (s : SysState) :
    sendToChat m c (Except.error e) s =
      Except.ok { s with log := s.log ++ ["send error: " ++ e] } := rfl

/-- After a pending timer expires and its handle is deleted, the state is the
original one minus that `(chat, slot)`'s timer and handle, with the clock at
the due time. -/
theorem expire_delete_spec (s : SysState) (tid : Nat) (t : Timer) (h : Inv s)
    (hfind : s.armed.find? (fun u => u.id == tid) = some t) :
    deleteSlotHandle t.chatId t.slot (expireTimer tid t s) =
    { chats := updateChat s.chats t.chatId
        { windows := (s.chat t.chatId).windows,
          reminders := (s.chat t.chatId).reminders.set t.slot none },
      armed := s.armed.filter (fun u => !(u.chatId == t.chatId && u.slot == t.slot)),
      nextId := s.nextId, sent := s.sent, log := s.log, now := max s.now t.fireAt } := by
  have htm : t ∈ s.armed := List.mem_of_find?_eq_some hfind
  have hid : t.id = tid := by simpa using List.find?_some hfind
  obtain ⟨h1, h2, h3, h4, h5⟩ := h
  have hget : (s.chat t.chatId).reminders.get t.slot = some t.id := (h1 t htm).1
  have hsome : (lookupChat s.chats t.chatId).isSome = true := (h1 t htm).2
  have hfilter : s.armed.filter (fun u => !(u.id == tid)) =
      s.armed.filter (fun u => !(u.chatId == t.chatId && u.slot == t.slot)) := by
    apply List.filter_congr
    intro u hu
    by_cases heq : u.id = tid
    · have hut : u = t := armed_id_inj s h2 u t hu htm (by rw [heq, hid])
      subst hut
      simp [heq]
    · have hL : (u.id == tid) = false := by simp [heq]
      have hR : (u.chatId == t.chatId && u.slot == t.slot) = false := by
        by_cases hcs : u.chatId = t.chatId ∧ u.slot = t.slot
        · exfalso
          have hg := (h1 u hu).1
          rw [hcs.1, hcs.2] at hg
          rw [hget] at hg
          simp at hg
          exact heq (hg.symm ▸ hid)
        · rcases not_and_or.mp hcs with hx | hx
          · have hb : (u.chatId == t.chatId) = false := by simp [hx]
            rw [hb, Bool.false_and]
          · have hb : (u.slot == t.slot) = false := by
              simp only [beq_eq_false_iff_ne, ne_eq]
              exact hx
            rw [hb, Bool.and_false]
      rw [hL, hR]
  set sE : SysState := { s with armed := s.armed.filter (fun u => !(u.id == tid)), now := max s.now t.fireAt } with hsE
  have hstep : expireTimer tid t s = sE := rfl
  rw [hstep]
  simp only [deleteSlotHandle]
  have hsomeE : (lookupChat sE.chats t.chatId).isSome = true := hsome
  rw [ensure_of_isSome _ _ hsomeE]
  have hgetE : (sE.chat t.chatId).reminders.get t.slot = some t.id := hget
  simp only [hgetE]
  have hchE : sE.chat t.chatId = s.chat t.chatId := rfl
  rw [hchE]
  rw [hfilter]

/-- Invariant preservation for the fired-and-deleted base state. -/
theorem inv_fired_base (s : SysState) (tid : Nat) (t : Timer) (h : Inv s)
    (hfind : s.armed.find? (fun u => u.id == tid) = some t) :
    Inv (deleteSlotHandle t.chatId t.slot (expireTimer tid t s)) := by
  rw [expire_delete_spec s tid t h hfind]
  have htm : t ∈ s.armed := List.mem_of_find?_eq_some hfind
  obtain ⟨h1, h2, h3, h4, h5⟩ := h
  have hInv : Inv s := ⟨h1, h2, h3, h4, h5⟩
  have hsome : (lookupChat s.chats t.chatId).isSome = true := (h1 t htm).2
  set stDel : ChatState :=
    { windows := (s.chat t.chatId).windows,
      reminders := (s.chat t.chatId).reminders.set t.slot none } with hstDel
  set s' : SysState :=
    { chats := updateChat s.chats t.chatId stDel,
      armed := s.armed.filter (fun u => !(u.chatId == t.chatId && u.slot == t.slot)),
      nextId := s.nextId, sent := s.sent, log := s.log, now := max s.now t.fireAt } with hs'
  have hchat_self : s'.chat t.chatId = stDel := by
    unfold SysState.chat
    rw [hs']
    simp only
    rw [lookupChat_updateChat_self, if_pos hsome]
    rfl
  have hchat_ne : ∀ c', c' ≠ t.chatId → s'.chat c' = s.chat c' := by
    intro c' hne
    unfold SysState.chat
    rw [hs']
    simp only
    rw [lookupChat_updateChat_ne _ _ _ _ hne]
  refine ⟨?_, ?_, ?_, ?_, ?_⟩
  · intro u hu
    rw [hs'] at hu
    simp only at hu
    obtain ⟨hum, hune⟩ := List.mem_filter.mp hu
    have hisSome : (lookupChat s'.chats u.chatId).isSome = true := by
      rw [hs']
      simp only
      by_cases hc : u.chatId = t.chatId
      · rw [hc, lookupChat_updateChat_self, if_pos hsome]
        rfl
      · rw [lookupChat_updateChat_ne _ _ _ _ hc]
        exact (h1 u hum).2
    by_cases hc : u.chatId = t.chatId
    · have hsl : u.slot ≠ t.slot := by
        intro hx
        rw [hc, hx] at hune
        simp at hune
      have hg := (h1 u hum).1
      rw [hc] at hg
      refine ⟨?_, hisSome⟩
      rw [hc, hchat_self, hstDel]
      simp only
      rw [reminders_get_set_ne _ _ _ _ hsl]
      exact hg
    · rw [hchat_ne u.chatId hc]
      exact ⟨(h1 u hum).1, hisSome⟩
  · rw [hs']
    simp only
    exact h2.sublist ((List.filter_sublist s.armed).map Timer.id)
  · intro u hu
    rw [hs'] at hu
    simp only at hu ⊢
    exact h3 u (List.mem_filter.mp hu).1
  · rw [hs']
    simp only
    rw [updateChat_keys]
    exact h4
  · intro p hp
    have hgen : ∀ c₀ sl₀, slotTracked s' c₀ sl₀ := by
      intro c₀ sl₀ i hi
      by_cases hc : c₀ = t.chatId
      · rw [hc, hchat_self, hstDel] at hi
        simp only at hi
        by_cases hsl : sl₀ = t.slot
        · rw [hsl, reminders_get_set_self] at hi
          simp at hi
        · rw [reminders_get_set_ne _ _ _ _ hsl] at hi
          obtain ⟨u, hu, huid, huc, husl⟩ := Inv.slotTracked_all s hInv t.chatId sl₀ i hi
          refine ⟨u, ?_, huid, by rw [huc, hc], husl⟩
          rw [hs']
          simp only
          apply List.mem_filter.mpr
          refine ⟨hu, ?_⟩
          have husl2 : u.slot ≠ t.slot := by rw [husl]; exact hsl
          have hb : (u.slot == t.slot) = false := by
            simp only [beq_eq_false_iff_ne, ne_eq]
            exact husl2
          rw [hb, Bool.and_false]
          rfl
      · rw [hchat_ne c₀ hc] at hi
        obtain ⟨u, hu, huid, huc, husl⟩ := Inv.slotTracked_all s hInv c₀ sl₀ i hi
        refine ⟨u, ?_, huid, huc, husl⟩
        rw [hs']
        simp only
        apply List.mem_filter.mpr
        refine ⟨hu, ?_⟩
        have huc2 : u.chatId ≠ t.chatId := by rw [huc]; exact hc
        have hb : (u.chatId == t.chatId) = false := by simp [huc2]
        rw [hb, Bool.false_and]
        rfl
    exact ⟨hgen p.1 Slot.morning, hgen p.1 Slot.evening⟩

theorem fireTimer_eq (tid : Nat) (tr : Except String Unit) (s : SysState) (t : Timer)
    (hfind : s.armed.find? (fun u => u.id == tid) = some t) :
    fireTimer tid tr s = runCallback t tr (deleteSlotHandle t.chatId t.slot (expireTimer tid t s)) := by
  unfold fireTimer
  rw [hfind]

/-! ### `runCallback` branch lemmas -/

theorem runCallback_stale_none (t : Timer) (tr : Except String Unit) (sB : SysState)
    (hfresh : (sB.chat t.chatId).windows.get t.slot = none) :
    runCallback t tr sB = sB := by
  simp [runCallback, hfresh]

theorem runCallback_stale_some (t : Timer) (tr : Except String Unit) (sB : SysState)
    (w : String) (hfresh : (sB.chat t.chatId).windows.get t.slot = some w)
    (hne : w ≠ t.window) :
    runCallback t tr sB = scheduleReminder t.chatId t.slot w sB := by
  simp [runCallback, hfresh, hne]

theorem runCallback_match_ok (t : Timer) (sB : SysState)
    (hfresh : (sB.chat t.chatId).windows.get t.slot = some t.window) :
    runCallback t (Except.ok ()) sB =
      scheduleReminder t.chatId t.slot t.window
        { sB with sent := sB.sent ++ [(t.chatId, reminderMessage t.slot t.window)] } := by
  simp [runCallback, hfresh, sendToChat, sendMessageRaw]

theorem runCallback_match_err (t : Timer) (e : String) (sB : SysState)
    (hfresh : (sB.chat t.chatId).windows.get t.slot = some t.window) :
    runCallback t (Except.error e) sB =
      scheduleReminder t.chatId t.slot t.window
        { sB with log := sB.log ++ ["send error: " ++ e] } := by
  simp [runCallback, hfresh, sendToChat, sendMessageRaw]

/-- The windows of every chat survive the expiry-and-handle-delete prefix of
the callback: only the reminder map is touched. -/
theorem fired_base_windows (s : SysState) (tid : Nat) (t : Timer) (h : Inv s)
    (hfind : s.armed.find? (fun u => u.id == tid) = some t) (c' : Nat) :
    ((deleteSlotHandle t.chatId t.slot (expireTimer tid t s)).chat c').windows =
      (s.chat c').windows := by
  rw [expire_delete_spec s tid t h hfind]
  have hsome : (lookupChat s.chats t.chatId).isSome = true :=
    (h.1 t (List.mem_of_find?_eq_some hfind)).2
  unfold SysState.chat
  simp only
  by_cases hc : c' = t.chatId
  · rw [hc, lookupChat_updateChat_self, if_pos hsome]
    rfl
  · rw [lookupChat_updateChat_ne _ _ _ _ hc]

theorem fired_base_fields (s : SysState) (tid : Nat) (t : Timer) (h : Inv s)
    (hfind : s.armed.find? (fun u => u.id == tid) = some t) :
    (deleteSlotHandle t.chatId t.slot (expireTimer tid t s)).sent = s.sent ∧
    (deleteSlotHandle t.chatId t.slot (expireTimer tid t s)).nextId = s.nextId ∧
    (deleteSlotHandle t.chatId t.slot (expireTimer tid t s)).now = max s.now t.fireAt ∧
    (deleteSlotHandle t.chatId t.slot (expireTimer tid t s)).log = s.log := by
  rw [expire_delete_spec s tid t h hfind]
  exact ⟨rfl, rfl, rfl, rfl⟩

/-! ### Reminder-clock arithmetic -/

theorem dayFloor_bounds (t : Int) : dayFloor t ≤ t ∧ t < dayFloor t + 86400 := by
  unfold dayFloor daySecs
  rw [Int.fdiv_eq_ediv _ (by norm_num)]
  have h1 := Int.ediv_add_emod t 86400
  have h2 := Int.emod_nonneg t (show (86400 : Int) ≠ 0 by norm_num)
  have h3 := Int.emod_lt_of_pos t (show (0 : Int) < 86400 by norm_num)
  omega

theorem dayFloor_eq_of (k t : Int) (h1 : k * 86400 ≤ t) (h2 : t < k * 86400 + 86400) :
    dayFloor t = k * 86400 := by
  have hb := dayFloor_bounds t
  unfold dayFloor daySecs at hb ⊢
  omega

theorem nextReminderDate_eq (h m now : Int) :
    nextReminderDate h m now =
      if dayFloor now + h * 3600 + m * 60 - 600 ≤ now
      then dayFloor now + h * 3600 + m * 60 - 600 + 86400
      else dayFloor now + h * 3600 + m * 60 - 600 := rfl

/-- The clock never schedules more than one day ahead. -/
theorem nextReminderDate_le (h m now : Int) (hh0 : 0 ≤ h) (hh : h ≤ 23)
    (hm0 : 0 ≤ m) (hm : m ≤ 59) :
    nextReminderDate h m now ≤ now + 86400 := by
  rw [nextReminderDate_eq]
  have hb := dayFloor_bounds now
  by_cases hc : dayFloor now + h * 3600 + m * 60 - 600 ≤ now
  · rw [if_pos hc]
    omega
  · rw [if_neg hc]
    omega

/-- Firing exactly at a canonical due time whose lead-adjusted start does not
cross midnight re-arms exactly one day later. -/
theorem nextReminderDate_at_canonical (h m k : Int)
    (hlead : 600 ≤ h * 3600 + m * 60) (hmax : h * 3600 + m * 60 - 600 < 86400) :
    nextReminderDate h m (k * 86400 + (h * 3600 + m * 60 - 600)) =
      k * 86400 + (h * 3600 + m * 60 - 600) + 86400 := by
  have hfl : dayFloor (k * 86400 + (h * 3600 + m * 60 - 600)) = k * 86400 :=
    dayFloor_eq_of k _ (by omega) (by omega)
  rw [nextReminderDate_eq, hfl, if_pos (by omega)]
  omega

/-! ### Validator characterization

The claim describes the accepted language semantically: hours `0–23` in one-
or two-digit form, minutes `00–59`, two groups joined by `-`, nothing else.
`MatchesWindowPattern` is that reading (built from the claim's words); the
characterization theorem proves it coincides with the source regex test. -/

theorem digitChar_eq_self (c : Char) (h1 : 48 ≤ c.toNat) : digitChar (c.toNat - 48) = c := by
  unfold digitChar
  rw [show 48 + (c.toNat - 48) = c.toNat by omega]
  exact Char.ofNat_toNat c

theorem isDigitChar_toNat (c : Char) (h : isDigitChar c = true) :
    48 ≤ c.toNat ∧ c.toNat ≤ 57 := by
  unfold isDigitChar at h
  rw [Bool.and_eq_true] at h
  exact ⟨of_decide_eq_true h.1, of_decide_eq_true h.2⟩

theorem isZeroToFive_toNat (c : Char) (h : isZeroToFive c = true) :
    48 ≤ c.toNat ∧ c.toNat ≤ 53 := by
  unfold isZeroToFive at h
  rw [Bool.and_eq_true] at h
  exact ⟨of_decide_eq_true h.1, of_decide_eq_true h.2⟩

theorem isZeroToThree_toNat (c : Char) (h : isZeroToThree c = true) :
    48 ≤ c.toNat ∧ c.toNat ≤ 51 := by
  unfold isZeroToThree at h
  rw [Bool.and_eq_true] at h
  exact ⟨of_decide_eq_true h.1, of_decide_eq_true h.2⟩

theorem isZeroOne_toNat (c : Char) (h : isZeroOne c = true) :
    48 ≤ c.toNat ∧ c.toNat ≤ 49 := by
  unfold isZeroOne at h
  rw [Bool.or_eq_true] at h
  rcases h with h | h
  · rw [show c = '0' from by simpa using h]
    exact ⟨by decide, by decide⟩
  · rw [show c = '1' from by simpa using h]
    exact ⟨by decide, by decide⟩

theorem isDigitChar_digitChar (d : Nat) (h : d ≤ 9) : isDigitChar (digitChar d) = true := by
  interval_cases d <;> decide

theorem isZeroToFive_digitChar (d : Nat) (h : d ≤ 5) : isZeroToFive (digitChar d) = true := by
  interval_cases d <;> decide

theorem isZeroToThree_digitChar (d : Nat) (h : d ≤ 3) :
    isZeroToThree (digitChar d) = true := by
  interval_cases d <;> decide

theorem isZeroOne_digitChar (d : Nat) (h : d ≤ 1) : isZeroOne (digitChar d) = true := by
  interval_cases d <;> decide

theorem digitChar_ne_colon (d : Nat) (h : d ≤ 9) : digitChar d ≠ ':' := by
  interval_cases d <;> decide

theorem matchTime_cons1 (c1 m1 m2 : Char) (rest : List Char)
    (h1 : isDigitChar c1 = true) (h2 : isZeroToFive m1 = true)
    (h3 : isDigitChar m2 = true) :
    matchTime (c1 :: ':' :: m1 :: m2 :: rest) = some rest := by
  simp [matchTime, h1, h2, h3]

theorem matchTime_cons2 (c1 c2 m1 m2 : Char) (rest : List Char) (hc2 : c2 ≠ ':')
    (hh : ((isZeroOne c1 && isDigitChar c2) || (c1 == '2' && isZeroToThree c2)) = true)
    (h2 : isZeroToFive m1 = true) (h3 : isDigitChar m2 = true) :
    matchTime (c1 :: c2 :: ':' :: m1 :: m2 :: rest) = some rest := by
  simp [matchTime, hc2, hh, h2, h3]

/-- Soundness of the spec reading: a represented `H:MM` prefix matches. -/
theorem matchTime_of_rep (hv mv : Nat) (H M r : List Char)
    (hH : HourRep hv H) (hM : MinRep mv M) :
    matchTime (H ++ ':' :: M ++ r) = some r := by
  obtain ⟨hm59, hMeq⟩ := hM
  have hd1 : mv / 10 ≤ 5 := by omega
  have hd2 : mv % 10 ≤ 9 := by omega
  rcases hH with ⟨hh9, hHeq⟩ | ⟨hh23, hHeq⟩
  · rw [hHeq, hMeq]
    simp only [List.cons_append, List.nil_append]
    exact matchTime_cons1 _ _ _ _ (isDigitChar_digitChar _ hh9)
      (isZeroToFive_digitChar _ hd1) (isDigitChar_digitChar _ hd2)
  · rw [hHeq, hMeq]
    simp only [List.cons_append, List.nil_append]
    have hq : hv / 10 ≤ 2 := by omega
    have hr : hv % 10 ≤ 9 := by omega
    apply matchTime_cons2 _ _ _ _ _ (digitChar_ne_colon _ hr) ?_
      (isZeroToFive_digitChar _ hd1) (isDigitChar_digitChar _ hd2)
    by_cases h19 : hv ≤ 19
    · have : hv / 10 ≤ 1 := by omega
      rw [isZeroOne_digitChar _ this, isDigitChar_digitChar _ hr]
      simp
    · have hq2 : hv / 10 = 2 := by omega
      have hr3 : hv % 10 ≤ 3 := by omega
      rw [hq2]
      rw [show digitChar 2 = '2' from rfl]
      simp [isZeroToThree_digitChar _ hr3]

/-- Completeness of the spec reading: a successful match of the hour-minute
group decomposes into represented hour and minute values. -/
theorem matchTime_some (l r : List Char) (h : matchTime l = some r) :
    ∃ hv mv H M, HourRep hv H ∧ MinRep mv M ∧ l = H ++ ':' :: M ++ r := by
  unfold matchTime at h
  split at h
  · rename_i c1 m1 m2 rest
    split at h
    · rename_i hcond
      injection h with h
      subst h
      rw [Bool.and_eq_true, Bool.and_eq_true] at hcond
      have hc1 := hcond.1
      have hm1 := hcond.2.1
      have hm2 := hcond.2.2
      obtain ⟨hc1a, hc1b⟩ := isDigitChar_toNat _ hc1
      obtain ⟨hm1a, hm1b⟩ := isZeroToFive_toNat _ hm1
      obtain ⟨hm2a, hm2b⟩ := isDigitChar_toNat _ hm2
      refine ⟨c1.toNat - 48, 10 * (m1.toNat - 48) + (m2.toNat - 48),
        [c1], [m1, m2], Or.inl ⟨by omega, ?_⟩, ⟨by omega, ?_⟩, by simp⟩
      · rw [digitChar_eq_self _ hc1a]
      · rw [show (10 * (m1.toNat - 48) + (m2.toNat - 48)) / 10 = m1.toNat - 48 by omega,
            show (10 * (m1.toNat - 48) + (m2.toNat - 48)) % 10 = m2.toNat - 48 by omega,
            digitChar_eq_self _ hm1a, digitChar_eq_self _ hm2a]
    · exact absurd h (by simp)
  · rename_i c1 c2 m1 m2 rest hne
    split at h
    · rename_i hcond
      injection h with h
      subst h
      rw [Bool.and_eq_true] at hcond
      obtain ⟨hhour, hmin⟩ := hcond
      rw [Bool.and_eq_true] at hmin
      obtain ⟨hm1, hm2⟩ := hmin
      obtain ⟨hm1a, hm1b⟩ := isZeroToFive_toNat _ hm1
      obtain ⟨hm2a, hm2b⟩ := isDigitChar_toNat _ hm2
      have hbound : 48 ≤ c1.toNat ∧ 48 ≤ c2.toNat ∧ c2.toNat ≤ 57 ∧
          10 * (c1.toNat - 48) + (c2.toNat - 48) ≤ 23 := by
        rw [Bool.or_eq_true] at hhour
        rcases hhour with hx | hx
        · rw [Bool.and_eq_true] at hx
          obtain ⟨h1a, h1b⟩ := isZeroOne_toNat _ hx.1
          obtain ⟨h2a, h2b⟩ := isDigitChar_toNat _ hx.2
          exact ⟨h1a, h2a, h2b, by omega⟩
        · rw [Bool.and_eq_true] at hx
          have hc1 : c1 = '2' := by simpa using hx.1
          obtain ⟨h2a, h2b⟩ := isZeroToThree_toNat _ hx.2
          have h50 : '2'.toNat = 50 := by decide
          refine ⟨?_, h2a, by omega, ?_⟩
          · rw [hc1]; decide
          · rw [hc1]
            show 10 * ('2'.toNat - 48) + (c2.toNat - 48) ≤ 23
            rw [h50]
            omega
      obtain ⟨hc1a, hc2a, hc2b, hle⟩ := hbound
      refine ⟨10 * (c1.toNat - 48) + (c2.toNat - 48),
        10 * (m1.toNat - 48) + (m2.toNat - 48),
        [c1, c2], [m1, m2], Or.inr ⟨hle, ?_⟩, ⟨by omega, ?_⟩, by simp⟩
      · rw [show (10 * (c1.toNat - 48) + (c2.toNat - 48)) / 10 = c1.toNat - 48 by omega,
            show (10 * (c1.toNat - 48) + (c2.toNat - 48)) % 10 = c2.toNat - 48 by omega,
            digitChar_eq_self _ hc1a, digitChar_eq_self _ hc2a]
      · rw [show (10 * (m1.toNat - 48) + (m2.toNat - 48)) / 10 = m1.toNat - 48 by omega,
            show (10 * (m1.toNat - 48) + (m2.toNat - 48)) % 10 = m2.toNat - 48 by omega,
            digitChar_eq_self _ hm1a, digitChar_eq_self _ hm2a]
    · exact absurd h (by simp)
  · exact absurd h (by simp)

/-- The validator accepts exactly the claim's language. -/
theorem isValidTimeWindow_iff (s : String) :
    isValidTimeWindow s = true ↔ MatchesWindowPattern s := by
  constructor
  · intro h
    unfold isValidTimeWindow at h
    cases hm1 : matchTime s.toList with
    | none => rw [hm1] at h; simp at h
    | some l1 =>
      rw [hm1] at h
      cases l1 with
      | nil => simp at h
      | cons c rest =>
        by_cases hc : c = '-'
        case neg => simp [hc] at h
        subst hc
        simp only [] at h
        cases hm2 : matchTime rest with
        | none => rw [hm2] at h; simp at h
        | some l2 =>
          rw [hm2] at h
          cases l2 with
          | cons x xs => simp at h
          | nil =>
            obtain ⟨hv1, mv1, H1, M1, hH1, hM1, heq1⟩ := matchTime_some _ _ hm1
            obtain ⟨hv2, mv2, H2, M2, hH2, hM2, heq2⟩ := matchTime_some _ _ hm2
            refine ⟨hv1, mv1, hv2, mv2, H1, M1, H2, M2, hH1, hM1, hH2, hM2, ?_⟩
            rw [heq1, heq2]
            simp
  · rintro ⟨h1, m1v, h2, m2v, H1, M1, H2, M2, hH1, hM1, hH2, hM2, heq⟩
    unfold isValidTimeWindow
    rw [heq]
    rw [show H1 ++ ':' :: M1 ++ '-' :: H2 ++ ':' :: M2 =
          H1 ++ ':' :: M1 ++ ('-' :: (H2 ++ ':' :: M2 ++ [])) by simp]
    rw [matchTime_of_rep h1 m1v H1 M1 _ hH1 hM1]
    simp only []
    rw [matchTime_of_rep h2 m2v H2 M2 [] hH2 hM2]

/-! ### Claim-level helpers -/

/-- The invariant bounds every `(chat, slot)` pair to at most one pending
timer. -/
theorem inv_armedFor_le_one (s : SysState) (h : Inv s) (c : Nat) (sl : Slot) :
    (armedFor s c sl).length ≤ 1 := by
  have hall : ∀ t ∈ armedFor s c sl, ∀ u ∈ armedFor s c sl, t = u := by
    intro t ht u hu
    obtain ⟨htm, htp⟩ := List.mem_filter.mp ht
    obtain ⟨hum, hup⟩ := List.mem_filter.mp hu
    simp only [Bool.and_eq_true, beq_iff_eq] at htp hup
    have hgt := (h.1 t htm).1
    have hgu := (h.1 u hum).1
    rw [htp.1, htp.2] at hgt
    rw [hup.1, hup.2] at hgu
    rw [hgt] at hgu
    have hids : t.id = u.id := by injection hgu
    exact armed_id_inj s h.2.1 t u htm hum hids
  have hnd : (armedFor s c sl).Nodup :=
    List.Nodup.filter _ (h.2.1.of_map)
  cases harm : armedFor s c sl with
  | nil => simp
  | cons t ts =>
    cases hts : ts with
    | nil => simp
    | cons u us =>
      exfalso
      have h1m : t ∈ armedFor s c sl := by rw [harm]; exact List.mem_cons_self _ _
      have h2m : u ∈ armedFor s c sl := by
        rw [harm, hts]
        exact List.mem_cons_of_mem _ (List.mem_cons_self _ _)
      have heq : t = u := hall t h1m u h2m
      rw [harm, hts] at hnd
      rw [List.nodup_cons] at hnd
      exact hnd.1 (heq ▸ List.mem_cons_self _ _)

/-- Invariant and timer counts after any successful `/set_windows`. -/
theorem setWindows_success_inv (c : Nat) (args : List String) (tgt : Option Nat)
    (s : SysState) (hInv : Inv s) (hlen : args.length = 1 ∨ args.length = 2)
    (hval : args.all isValidTimeWindow = true) :
    Inv (setWindowsCommand c args tgt s).1 ∧
    (armedFor (setWindowsCommand c args tgt s).1 c Slot.morning).length = 1 ∧
    (armedFor (setWindowsCommand c args tgt s).1 c Slot.evening).length =
      (if args.length = 2 then 1 else 0) := by
  match args, hlen with
  | [a], _ =>
    have hva : isValidTimeWindow a = true := by simpa using hval
    obtain ⟨hi, _, hm, he, _⟩ := setWindows_success_one c a tgt s hInv hva
    refine ⟨hi, hm, ?_⟩
    rw [he]
    simp
  | [a, b], _ =>
    have hv : isValidTimeWindow a = true ∧ isValidTimeWindow b = true := by
      simpa using hval
    obtain ⟨hi, _, hm, he, _⟩ := setWindows_success_two c a b tgt s hInv hv.1 hv.2
    refine ⟨hi, hm, ?_⟩
    rw [he]
    simp

/-- The `/show_windows` reply is a function of the chat's stored windows. -/
theorem showWindows_reply (c : Nat) (s : SysState) :
    (showWindowsCommand c s).2 =
      (match (s.chat c).windows.morning, (s.chat c).windows.evening with
       | none, none => Reply.noWindowsInfo
       | m, e => Reply.windowsList m e) := by
  simp only [showWindowsCommand, ensure_chat]
  rcases hm : (s.chat c).windows.morning with _ | m <;>
    rcases he : (s.chat c).windows.evening with _ | e <;> simp [hm, he]

/-! ## Claim theorems -/

/-- C1: for every chat and slot at most one armed timer exists at any instant
(`scheduleReminder` cancels the slot's previous handle, `/set_windows` clears
the chat's timers before re-arming), so two successive `/set_windows`
invocations leave exactly one armed timer per non-null slot. -/
theorem claim_C1_single_timer_per_slot (s : SysState) (c : Nat)
    (tgt1 tgt2 : Option Nat) (a1 a2 : List String) (hInv : Inv s)
    (h1len : a1.length = 1 ∨ a1.length = 2) (h1val : a1.all isValidTimeWindow = true)
    (h2len : a2.length = 1 ∨ a2.length = 2) (h2val : a2.all isValidTimeWindow = true) :
    (∀ c' sl,
      (armedFor (setWindowsCommand c a2 tgt2 ((setWindowsCommand c a1 tgt1 s).1)).1
        c' sl).length ≤ 1) ∧
    (armedFor (setWindowsCommand c a2 tgt2 ((setWindowsCommand c a1 tgt1 s).1)).1
      c Slot.morning).length = 1 ∧
    (armedFor (setWindowsCommand c a2 tgt2 ((setWindowsCommand c a1 tgt1 s).1)).1
      c Slot.evening).length = (if a2.length = 2 then 1 else 0) := by
  obtain ⟨hi1, _, _⟩ := setWindows_success_inv c a1 tgt1 s hInv h1len h1val
  obtain ⟨hi2, hm, he⟩ := setWindows_success_inv c a2 tgt2 _ hi1 h2len h2val
  exact ⟨fun c' sl => inv_armedFor_le_one _ hi2 c' sl, hm, he⟩

/-- C1 witness: two rapid `/set_windows` on a fresh process. -/
theorem claim_C1_witness :
    Inv (initState 0) ∧
    (["10:00-11:00"] : List String).all isValidTimeWindow = true ∧
    (["12:00-13:00", "18:00-19:00"] : List String).all isValidTimeWindow = true ∧
    ((∀ c' sl,
      (armedFor (setWindowsCommand 1 ["12:00-13:00", "18:00-19:00"] none
        ((setWindowsCommand 1 ["10:00-11:00"] none (initState 0)).1)).1 c' sl).length ≤ 1) ∧
    (armedFor (setWindowsCommand 1 ["12:00-13:00", "18:00-19:00"] none
        ((setWindowsCommand 1 ["10:00-11:00"] none (initState 0)).1)).1
      1 Slot.morning).length = 1 ∧
    (armedFor (setWindowsCommand 1 ["12:00-13:00", "18:00-19:00"] none
        ((setWindowsCommand 1 ["10:00-11:00"] none (initState 0)).1)).1
      1 Slot.evening).length =
        (if (["12:00-13:00", "18:00-19:00"] : List String).length = 2 then 1 else 0)) :=
  ⟨by unfold Inv slotTracked; decide, by decide, by decide,
   claim_C1_single_timer_per_slot (initState 0) 1 none none
     ["10:00-11:00"] ["12:00-13:00", "18:00-19:00"]
     (by unfold Inv slotTracked; decide) (by decide) (by decide) (by decide) (by decide)⟩

/-- C5: `/set_windows` replies with the usage error on 0 or more than 2
arguments and with the format error when an argument fails validation, and in
both cases the returned state is exactly the input state: no window stored, no
timer created or canceled. -/
theorem claim_C5_error_no_mutation (c : Nat) (args : List String) (tgt : Option Nat)
    (s : SysState) :
    (args.length = 0 ∨ args.length > 2 →
        setWindowsCommand c args tgt s = (s, Reply.usageError)) ∧
    (¬(args.length = 0 ∨ args.length > 2) → args.all isValidTimeWindow = false →
        setWindowsCommand c args tgt s = (s, Reply.formatError)) :=
  ⟨fun h => setWindows_error_usage c args tgt s h,
   fun h1 h2 => setWindows_error_format c args tgt s h1 h2⟩

/-- C5 witness: three arguments, and one malformed argument among two. -/
theorem claim_C5_witness :
    ((["10:00-11:00", "12:00-13:00", "18:00-19:00"] : List String).length = 0 ∨
      (["10:00-11:00", "12:00-13:00", "18:00-19:00"] : List String).length > 2) ∧
    setWindowsCommand 1 ["10:00-11:00", "12:00-13:00", "18:00-19:00"] none (initState 0) =
      (initState 0, Reply.usageError) ∧
    ¬((["10:00-11:00", "25:99"] : List String).length = 0 ∨
      (["10:00-11:00", "25:99"] : List String).length > 2) ∧
    (["10:00-11:00", "25:99"] : List String).all isValidTimeWindow = false ∧
    setWindowsCommand 1 ["10:00-11:00", "25:99"] none (initState 0) =
      (initState 0, Reply.formatError) :=
  ⟨by decide,
   (claim_C5_error_no_mutation 1 ["10:00-11:00", "12:00-13:00", "18:00-19:00"] none
      (initState 0)).1 (by decide),
   by decide, by decide,
   (claim_C5_error_no_mutation 1 ["10:00-11:00", "25:99"] none (initState 0)).2
      (by decide) (by decide)⟩

/-- C6: both termination-signal handlers cancel every armed timer of every
chat; afterwards no fire attempt does anything and no notification is ever
dispatched, whatever delay had been computed. -/
theorem claim_C6_shutdown (s : SysState) (hInv : Inv s) :
    (onSigint s).armed = [] ∧ (onSigterm s).armed = [] ∧
    (∀ tid tr, fireTimer tid tr (onSigint s) = onSigint s) ∧
    (∀ tid tr, fireTimer tid tr (onSigterm s) = onSigterm s) ∧
    (∀ tid tr, (fireTimer tid tr (onSigint s)).sent = s.sent) ∧
    (∀ tid tr, (fireTimer tid tr (onSigterm s)).sent = s.sent) := by
  obtain ⟨hi, ha, hs⟩ := clearAll_spec s hInv
  have hint : (onSigint s).armed = [] := ha
  have hterm : (onSigterm s).armed = [] := ha
  have hfi : ∀ tid tr, fireTimer tid tr (onSigint s) = onSigint s :=
    fun tid tr => fireTimer_no_armed tid tr _ hint
  have hft : ∀ tid tr, fireTimer tid tr (onSigterm s) = onSigterm s :=
    fun tid tr => fireTimer_no_armed tid tr _ hterm
  refine ⟨hint, hterm, hfi, hft, ?_, ?_⟩
  · intro tid tr
    rw [hfi tid tr]
    exact hs
  · intro tid tr
    rw [hft tid tr]
    exact hs

/-- C6 witness: shutdown with two timers armed. -/
theorem claim_C6_witness :
    Inv (setWindowsCommand 1 ["10:00-11:00", "18:00-19:00"] none (initState 0)).1 ∧
    (onSigint (setWindowsCommand 1 ["10:00-11:00", "18:00-19:00"] none (initState 0)).1).armed
      = [] ∧
    (∀ tid tr, (fireTimer tid tr
      (onSigint (setWindowsCommand 1 ["10:00-11:00", "18:00-19:00"] none
        (initState 0)).1)).sent =
      (setWindowsCommand 1 ["10:00-11:00", "18:00-19:00"] none (initState 0)).1.sent) :=
  ⟨by unfold Inv slotTracked; decide,
   (claim_C6_shutdown _ (by unfold Inv slotTracked; decide)).1,
   (claim_C6_shutdown _ (by unfold Inv slotTracked; decide)).2.2.2.2.1⟩

/-- C8: `clearChatReminders` cancels all of the chat's armed timers and
empties its handle map while leaving the stored windows untouched, so
`/show_windows` reports the same windows afterwards. -/
theorem claim_C8_clear_keeps_windows (c : Nat) (s : SysState) (hInv : Inv s) :
    ((clearChatReminders c s).chat c).windows = (s.chat c).windows ∧
    ((clearChatReminders c s).chat c).reminders = ⟨none, none⟩ ∧
    (∀ sl, armedFor (clearChatReminders c s) c sl = []) ∧
    (showWindowsCommand c (clearChatReminders c s)).2 = (showWindowsCommand c s).2 := by
  refine ⟨?_, ?_, fun sl => clear_armedFor c sl s hInv, ?_⟩
  · rw [clear_chat_self]
  · rw [clear_chat_self]
  · rw [showWindows_reply, showWindows_reply, clear_chat_self]

/-- C8 witness: clearing a chat with both windows set and armed. -/
theorem claim_C8_witness :
    Inv (setWindowsCommand 1 ["10:00-11:00", "18:00-19:00"] none (initState 0)).1 ∧
    ((clearChatReminders 1
        (setWindowsCommand 1 ["10:00-11:00", "18:00-19:00"] none (initState 0)).1).chat 1).windows =
      ((setWindowsCommand 1 ["10:00-11:00", "18:00-19:00"] none (initState 0)).1.chat 1).windows ∧
    (showWindowsCommand 1 (clearChatReminders 1
        (setWindowsCommand 1 ["10:00-11:00", "18:00-19:00"] none (initState 0)).1)).2 =
      (showWindowsCommand 1
        (setWindowsCommand 1 ["10:00-11:00", "18:00-19:00"] none (initState 0)).1).2 :=
  ⟨by unfold Inv slotTracked; decide,
   (claim_C8_clear_keeps_windows 1 _ (by unfold Inv slotTracked; decide)).1,
   (claim_C8_clear_keeps_windows 1 _ (by unfold Inv slotTracked; decide)).2.2.2⟩

/-- C10: `/set_windows` with one valid argument stores it as the morning
window, nulls the evening window and cancels any armed evening timer; exactly
one morning timer remains. -/
theorem claim_C10_single_arg_drops_evening (c : Nat) (w : String) (tgt : Option Nat)
    (s : SysState) (hInv : Inv s) (hval : isValidTimeWindow w = true) :
    ((setWindowsCommand c [w] tgt s).1.chat c).windows = ⟨some w, none⟩ ∧
    armedFor (setWindowsCommand c [w] tgt s).1 c Slot.evening = [] ∧
    (armedFor (setWindowsCommand c [w] tgt s).1 c Slot.morning).length = 1 := by
  obtain ⟨_, hw, hm, he, _⟩ := setWindows_success_one c w tgt s hInv hval
  exact ⟨hw, he, hm⟩

/-- C10 witness: a configured evening window is silently removed. -/
theorem claim_C10_witness :
    Inv (setWindowsCommand 1 ["10:00-11:00", "18:00-19:00"] none (initState 0)).1 ∧
    isValidTimeWindow "12:00-13:00" = true ∧
    (armedFor (setWindowsCommand 1 ["10:00-11:00", "18:00-19:00"] none (initState 0)).1
      1 Slot.evening).length = 1 ∧
    ((setWindowsCommand 1 ["12:00-13:00"] none
        (setWindowsCommand 1 ["10:00-11:00", "18:00-19:00"] none (initState 0)).1).1.chat 1).windows
      = ⟨some "12:00-13:00", none⟩ ∧
    armedFor (setWindowsCommand 1 ["12:00-13:00"] none
        (setWindowsCommand 1 ["10:00-11:00", "18:00-19:00"] none (initState 0)).1).1
      1 Slot.evening = [] :=
  ⟨by unfold Inv slotTracked; decide, by decide, by decide,
   (claim_C10_single_arg_drops_evening 1 "12:00-13:00" none _
      (by unfold Inv slotTracked; decide) (by decide)).1,
   (claim_C10_single_arg_drops_evening 1 "12:00-13:00" none _
      (by unfold Inv slotTracked; decide) (by decide)).2.1⟩

/-- C2 counterexample to the claim as stated: with window `00:05-01:00`
(10-minute lead crossing midnight) the timer armed at `43200` (noon of day 0)
is due at `86100` (23:55 of day 0); firing it on time dispatches the
notification and re-arms — but for `86100` again, the very same instant, not
for the following day (`86100 + 86400`). -/
theorem claim_C2_counterexample :
    ((setWindowsCommand 1 ["00:05-01:00"] none (initState 43200)).1.armed.map Timer.fireAt
       = [86100]) ∧
    ((fireTimer 0 (Except.ok ())
        (setWindowsCommand 1 ["00:05-01:00"] none (initState 43200)).1).sent
       = [(1, reminderMessage Slot.morning "00:05-01:00")]) ∧
    ((fireTimer 0 (Except.ok ())
        (setWindowsCommand 1 ["00:05-01:00"] none (initState 43200)).1).armed.map
          Timer.fireAt = [86100]) ∧
    ¬((86100 : Int) = 86100 + 86400) :=
  ⟨by decide, by decide, by decide, by decide⟩

/-- C2 (amended): when a pending timer fires, the callback re-reads the
slot's currently stored window.  If it is gone, nothing is sent and nothing
re-armed; if it changed to another value, nothing is sent and a timer for the
new value is armed at once; if it is unchanged, the notification is
dispatched (transport failures only logged) and a timer for the same value is
re-armed at the clock's next occurrence computed at fire time — which is
exactly one day after the due time whenever the timer fired on schedule and
the 10-minute lead does not cross midnight (start at or after 00:10). -/
theorem claim_C2_fire_staleness (s : SysState) (tid : Nat) (t : Timer)
    (tr : Except String Unit) (hInv : Inv s)
    (hfind : s.armed.find? (fun u => u.id == tid) = some t) :
    ((s.chat t.chatId).windows.get t.slot = none →
        fireTimer tid tr s = deleteSlotHandle t.chatId t.slot (expireTimer tid t s) ∧
        (fireTimer tid tr s).sent = s.sent) ∧
    (∀ w, (s.chat t.chatId).windows.get t.slot = some w → w ≠ t.window →
        (fireTimer tid tr s).sent = s.sent ∧
        armedFor (fireTimer tid tr s) t.chatId t.slot =
          [newTimer t.chatId t.slot w
            (deleteSlotHandle t.chatId t.slot (expireTimer tid t s))]) ∧
    ((s.chat t.chatId).windows.get t.slot = some t.window →
        (tr = Except.ok () →
          (fireTimer tid tr s).sent =
            s.sent ++ [(t.chatId, reminderMessage t.slot t.window)]) ∧
        (∀ e, tr = Except.error e → (fireTimer tid tr s).sent = s.sent) ∧
        (∃ u, armedFor (fireTimer tid tr s) t.chatId t.slot = [u] ∧
          u.window = t.window ∧
          u.fireAt = nextReminderDate (parseStartHM t.window).1 (parseStartHM t.window).2
            (max s.now t.fireAt)) ∧
        (∀ k : Int,
          600 ≤ (parseStartHM t.window).1 * 3600 + (parseStartHM t.window).2 * 60 →
          (parseStartHM t.window).1 * 3600 + (parseStartHM t.window).2 * 60 - 600 < 86400 →
          t.fireAt = k * 86400 +
            ((parseStartHM t.window).1 * 3600 + (parseStartHM t.window).2 * 60 - 600) →
          s.now ≤ t.fireAt →
          ∃ u, armedFor (fireTimer tid tr s) t.chatId t.slot = [u] ∧
            u.window = t.window ∧ u.fireAt = t.fireAt + 86400)) := by
  have hInvB : Inv (deleteSlotHandle t.chatId t.slot (expireTimer tid t s)) :=
    inv_fired_base s tid t hInv hfind
  have hwin := fired_base_windows s tid t hInv hfind
  obtain ⟨hBsent, hBnext, hBnow, hBlog⟩ := fired_base_fields s tid t hInv hfind
  have hfe := fireTimer_eq tid tr s t hfind
  set sB := deleteSlotHandle t.chatId t.slot (expireTimer tid t s) with hsB
  refine ⟨?_, ?_, ?_⟩
  · intro hf
    have hfB : (sB.chat t.chatId).windows.get t.slot = none := by
      rw [hwin]
      exact hf
    rw [hfe, runCallback_stale_none t tr sB hfB]
    exact ⟨rfl, hBsent⟩
  · intro w hf hne
    have hfB : (sB.chat t.chatId).windows.get t.slot = some w := by
      rw [hwin]
      exact hf
    rw [hfe, runCallback_stale_some t tr sB w hfB hne]
    constructor
    · rw [schedule_sent]
      exact hBsent
    · exact schedule_armedFor_self _ _ _ _ hInvB
  · intro hf
    have hfB : (sB.chat t.chatId).windows.get t.slot = some t.window := by
      rw [hwin]
      exact hf
    have hmain : ∃ s2 : SysState, fireTimer tid tr s =
        scheduleReminder t.chatId t.slot t.window s2 ∧ Inv s2 ∧
        s2.now = max s.now t.fireAt ∧ s2.nextId = sB.nextId ∧
        (tr = Except.ok () → s2.sent = s.sent ++ [(t.chatId, reminderMessage t.slot t.window)]) ∧
        (∀ e, tr = Except.error e → s2.sent = s.sent) := by
      cases tr with
      | ok u0 =>
        cases u0
        refine ⟨{ sB with sent := sB.sent ++ [(t.chatId, reminderMessage t.slot t.window)] },
          ?_, ?_, ?_, rfl, ?_, ?_⟩
        · rw [hfe, runCallback_match_ok t sB hfB]
        · exact inv_transport sB _ hInvB rfl rfl rfl
        · show sB.now = max s.now t.fireAt
          exact hBnow
        · intro _
          show sB.sent ++ _ = s.sent ++ _
          rw [hBsent]
        · intro e he
          exact absurd he (by simp)
      | error e0 =>
        refine ⟨{ sB with log := sB.log ++ ["send error: " ++ e0] },
          ?_, ?_, ?_, rfl, ?_, ?_⟩
        · rw [hfe, runCallback_match_err t e0 sB hfB]
        · exact inv_transport sB _ hInvB rfl rfl rfl
        · show sB.now = max s.now t.fireAt
          exact hBnow
        · intro hx
          exact absurd hx (by simp)
        · intro e he
          have : e0 = e := by injection he
          subst this
          show sB.sent = s.sent
          exact hBsent
    obtain ⟨s2, heq2, hInv2, hnow2, hnext2, hok2, herr2⟩ := hmain
    have harm : armedFor (fireTimer tid tr s) t.chatId t.slot =
        [newTimer t.chatId t.slot t.window s2] := by
      rw [heq2]
      exact schedule_armedFor_self _ _ _ _ hInv2
    refine ⟨?_, ?_, ?_, ?_⟩
    · intro hx
      rw [heq2, schedule_sent]
      exact hok2 hx
    · intro e he
      rw [heq2, schedule_sent]
      exact herr2 e he
    · refine ⟨newTimer t.chatId t.slot t.window s2, harm, rfl, ?_⟩
      show nextReminderDate (parseStartHM t.window).1 (parseStartHM t.window).2 s2.now = _
      rw [hnow2]
    · intro k hlead hmax hcanon hnowle
      refine ⟨newTimer t.chatId t.slot t.window s2, harm, rfl, ?_⟩
      show nextReminderDate (parseStartHM t.window).1 (parseStartHM t.window).2 s2.now =
        t.fireAt + 86400
      rw [hnow2, max_eq_right hnowle, hcanon]
      exact nextReminderDate_at_canonical _ _ k hlead hmax

/-- C2 witness: an unchanged `10:00-11:00` window fired on schedule dispatches
and re-arms. -/
theorem claim_C2_witness :
    Inv (setWindowsCommand 1 ["10:00-11:00"] none (initState 0)).1 ∧
    ((setWindowsCommand 1 ["10:00-11:00"] none (initState 0)).1.armed.find?
        (fun u => u.id == 0) =
      some { id := 0, chatId := 1, slot := Slot.morning, window := "10:00-11:00",
             fireAt := 35400 }) ∧
    (fireTimer 0 (Except.ok ()) (setWindowsCommand 1 ["10:00-11:00"] none (initState 0)).1).sent
      = (setWindowsCommand 1 ["10:00-11:00"] none (initState 0)).1.sent ++
        [(1, reminderMessage Slot.morning "10:00-11:00")] :=
  ⟨by unfold Inv slotTracked; decide, by decide,
   ((claim_C2_fire_staleness (setWindowsCommand 1 ["10:00-11:00"] none (initState 0)).1 0
      { id := 0, chatId := 1, slot := Slot.morning, window := "10:00-11:00", fireAt := 35400 }
      (Except.ok ()) (by unfold Inv slotTracked; decide) (by decide)).2.2 (by decide)).1 rfl⟩

/-- C3: `nextReminderDate` builds today's start-of-window instant, subtracts
the 10-minute lead with calendar borrowing, and advances by exactly one day
iff the candidate is not strictly in the future (equality counts as passed);
start 10:00 with now 09:55 yields tomorrow 09:50. -/
theorem claim_C3_next_reminder_date (h m now : Int) :
    (dayFloor now + h * 3600 + m * 60 - 600 ≤ now →
        nextReminderDate h m now = dayFloor now + h * 3600 + m * 60 - 600 + 86400) ∧
    (now < dayFloor now + h * 3600 + m * 60 - 600 →
        nextReminderDate h m now = dayFloor now + h * 3600 + m * 60 - 600) ∧
    nextReminderDate 10 0 (9 * 3600 + 55 * 60) = 86400 + 9 * 3600 + 50 * 60 ∧
    nextReminderDate 10 0 (9 * 3600 + 50 * 60) = 86400 + 9 * 3600 + 50 * 60 ∧
    nextReminderDate 0 5 43200 = 86400 - 300 := by
  refine ⟨?_, ?_, by decide, by decide, by decide⟩
  · intro hle
    rw [nextReminderDate_eq, if_pos hle]
  · intro hlt
    rw [nextReminderDate_eq, if_neg (by omega)]

/-- C3 witness: the spec's worked example, 10:00 with now 09:55. -/
theorem claim_C3_witness :
    dayFloor (9 * 3600 + 55 * 60) + 10 * 3600 + 0 * 60 - 600 ≤ 9 * 3600 + 55 * 60 ∧
    nextReminderDate 10 0 (9 * 3600 + 55 * 60) =
      dayFloor (9 * 3600 + 55 * 60) + 10 * 3600 + 0 * 60 - 600 + 86400 :=
  ⟨by decide, (claim_C3_next_reminder_date 10 0 (9 * 3600 + 55 * 60)).1 (by decide)⟩

/-- C4: the validator accepts exactly the strings of shape
`([01]?\d|2[0-3]):[0-5]\d-([01]?\d|2[0-3]):[0-5]\d` — hours 0–23 in one- or
two-digit form, minutes 00–59 — rejecting everything else, including
`25:00-10:00`, `10:00` and `abc`; no ordering check between the two
boundaries is made (`23:00-01:00` is accepted). -/
theorem claim_C4_validator (s : String) :
    (isValidTimeWindow s = true ↔ MatchesWindowPattern s) ∧
    isValidTimeWindow "25:00-10:00" = false ∧
    isValidTimeWindow "10:00" = false ∧
    isValidTimeWindow "abc" = false ∧
    isValidTimeWindow "23:00-01:00" = true :=
  ⟨isValidTimeWindow_iff s, by decide, by decide, by decide, by decide⟩

/-- C7: the notification send never raises to its caller — transport failures
are caught and logged — and a failed dispatch still re-arms the slot's timer
(the recurring schedule survives). -/
theorem claim_C7_send_never_raises (m : String) (c : Nat) (tr : Except String Unit)
    (s0 : SysState) (s : SysState) (tid : Nat) (t : Timer) (e : String)
    (hInv : Inv s) (hfind : s.armed.find? (fun u => u.id == tid) = some t)
    (hfresh : (s.chat t.chatId).windows.get t.slot = some t.window) :
    (∃ s2, sendToChat m c tr s0 = Except.ok s2) ∧
    (∀ e0 s1, sendToChat m c (Except.error e0) s1 =
        Except.ok { s1 with log := s1.log ++ ["send error: " ++ e0] }) ∧
    (∃ u, armedFor (fireTimer tid (Except.error e) s) t.chatId t.slot = [u] ∧
        u.window = t.window) ∧
    (fireTimer tid (Except.error e) s).sent = s.sent := by
  have hInvB : Inv (deleteSlotHandle t.chatId t.slot (expireTimer tid t s)) :=
    inv_fired_base s tid t hInv hfind
  have hwin := fired_base_windows s tid t hInv hfind
  obtain ⟨hBsent, _, _, _⟩ := fired_base_fields s tid t hInv hfind
  have hfe := fireTimer_eq tid (Except.error e) s t hfind
  set sB := deleteSlotHandle t.chatId t.slot (expireTimer tid t s) with hsB
  have hfB : (sB.chat t.chatId).windows.get t.slot = some t.window := by
    rw [hwin]
    exact hfresh
  have heq2 : fireTimer tid (Except.error e) s =
      scheduleReminder t.chatId t.slot t.window
        { sB with log := sB.log ++ ["send error: " ++ e] } := by
    rw [hfe, runCallback_match_err t e sB hfB]
  have hInv2 : Inv ({ sB with log := sB.log ++ ["send error: " ++ e] } : SysState) :=
    inv_transport sB _ hInvB rfl rfl rfl
  refine ⟨sendToChat_never_raises m c tr s0,
    fun e0 s1 => sendToChat_err m c e0 s1, ?_, ?_⟩
  · refine ⟨newTimer t.chatId t.slot t.window
      { sB with log := sB.log ++ ["send error: " ++ e] }, ?_, rfl⟩
    rw [heq2]
    exact schedule_armedFor_self _ _ _ _ hInv2
  · rw [heq2, schedule_sent]
    exact hBsent

/-- C7 witness: a failed transport on a due `10:00-11:00` timer leaves the
dispatch log unchanged and the slot re-armed. -/
theorem claim_C7_witness :
    Inv (setWindowsCommand 1 ["10:00-11:00"] none (initState 0)).1 ∧
    ((setWindowsCommand 1 ["10:00-11:00"] none (initState 0)).1.armed.find?
        (fun u => u.id == 0) =
      some { id := 0, chatId := 1, slot := Slot.morning, window := "10:00-11:00",
             fireAt := 35400 }) ∧
    (fireTimer 0 (Except.error "net down")
        (setWindowsCommand 1 ["10:00-11:00"] none (initState 0)).1).sent =
      (setWindowsCommand 1 ["10:00-11:00"] none (initState 0)).1.sent :=
  ⟨by unfold Inv slotTracked; decide, by decide,
   (claim_C7_send_never_raises "msg" 2 (Except.ok ()) (initState 0)
      (setWindowsCommand 1 ["10:00-11:00"] none (initState 0)).1 0
      { id := 0, chatId := 1, slot := Slot.morning, window := "10:00-11:00", fireAt := 35400 }
      "net down" (by unfold Inv slotTracked; decide) (by decide) (by decide)).2.2.2⟩

/-- C9: the clock's result is never more than 24 hours ahead, but is not
always in the future: with start `00:05` and now `23:58` the result is 23:55
of the same day, already past, so the computed `setTimeout` delay is negative
and the reminder fires immediately instead of the next day. -/
theorem claim_C9_delay_bound_and_negative :
    (∀ h m now : Int, 0 ≤ h → h ≤ 23 → 0 ≤ m → m ≤ 59 →
        nextReminderDate h m now ≤ now + 86400) ∧
    nextReminderDate 0 5 86280 ≤ 86280 ∧
    nextReminderDate 0 5 86280 - 86280 < 0 ∧
    (∃ t, t ∈ (setWindowsCommand 1 ["00:05-01:00"] none (initState 86280)).1.armed ∧
        t.fireAt < (setWindowsCommand 1 ["00:05-01:00"] none (initState 86280)).1.now) ∧
    (fireTimer 0 (Except.ok ())
        (setWindowsCommand 1 ["00:05-01:00"] none (initState 86280)).1).now = 86280 ∧
    (fireTimer 0 (Except.ok ())
        (setWindowsCommand 1 ["00:05-01:00"] none (initState 86280)).1).sent =
      [(1, reminderMessage Slot.morning "00:05-01:00")] := by
  refine ⟨fun h m now hh0 hh hm0 hm => nextReminderDate_le h m now hh0 hh hm0 hm,
    by decide, by decide, ?_, by decide, by decide⟩
  refine ⟨{ id := 0, chatId := 1, slot := Slot.morning, window := "00:05-01:00",
            fireAt := 86100 }, by decide, by decide⟩

/-- C4 witness: a mixed one- and two-digit window is accepted and matches the
pattern. -/
theorem claim_C4_witness :
    isValidTimeWindow "9:05-23:59" = true ∧ MatchesWindowPattern "9:05-23:59" :=
  ⟨by decide, (claim_C4_validator "9:05-23:59").1.mp (by decide)⟩

/-- C9 witness: the bound applied at the problematic input. -/
theorem claim_C9_witness :
    (0 : Int) ≤ 0 ∧ (0 : Int) ≤ 23 ∧ (0 : Int) ≤ 5 ∧ (5 : Int) ≤ 59 ∧
    nextReminderDate 0 5 86280 ≤ 86280 + 86400 :=
  ⟨by decide, by decide, by decide, by decide,
   claim_C9_delay_bound_and_negative.1 0 5 86280 (by decide) (by decide) (by decide)
     (by decide)⟩

end ReviewReminder
